import Mathlib

/-!
Verification development for the moltworker gateway supervisor and R2 state
sync engine.  The definitions below are a shallow embedding of
`src/gateway/process.ts` (process directory cache, classifier/reaper,
gateway supervisor) and of the R2 sync module (`syncToR2`, `restoreFromR2`,
`restoreDeferredFiles`).  JavaScript strings are modelled as `List Char`,
raw byte contents as `List Nat`, timestamps (`Date.now()`) as `Nat`
milliseconds, and every asynchronous backend call is passed in explicitly as
an oracle value (`Except` for fallible calls).
-/

deriving instance DecidableEq for Except

namespace Moltworker

/-- JS string model. -/
abbrev Chars := List Char

/-- Raw byte sequence model. -/
abbrev Bytes := List Nat

/-! ### Exclusion rules (sync module, `shouldExclude` / `isSessionFile`) -/

/-- File extensions to exclude from backup (`EXCLUDED_EXTENSIONS`). -/
def EXCLUDED_EXTENSIONS : List Chars :=
  [".lock".data, ".log".data, ".tmp".data, ".sample".data]

/-- Directory names to always exclude from sync (`EXCLUDED_DIRS`). -/
def EXCLUDED_DIRS : List Chars := [".git".data, "node_modules".data]

/-- Split a path on slash characters, mirroring JS `filePath.split('/')`. -/
def splitSeg : Chars → List Chars
  | [] => [[]]
  | c :: rest =>
    if c = '/' then [] :: splitSeg rest
    else
      match splitSeg rest with
      | s :: ss => (c :: s) :: ss
      | [] => [[c]]

/-- Embedding of the sync module's `shouldExclude`.  The regex test
`\.bak(?:[.-]|$)` succeeds exactly when the path contains the substring
".bak." or ".bak-" or ends with ".bak". -/
def shouldExclude (filePath : Chars) : Bool :=
  EXCLUDED_EXTENSIONS.any (fun ext => ext.isSuffixOf filePath) ||
  (decide (".bak.".data <:+: filePath) || decide (".bak-".data <:+: filePath) ||
    ".bak".data.isSuffixOf filePath) ||
  (splitSeg filePath).any (fun p => EXCLUDED_DIRS.contains p)

/-- Helper for the session-directory regex: looks for consecutive segments
"agents", nonempty, "sessions" where "sessions" is followed by a further
slash (hence a further segment). -/
def hasSessionTriple : List Chars → Bool
  | a :: x :: s :: r :: rest =>
    (a == "agents".data && !x.isEmpty && s == "sessions".data) ||
    hasSessionTriple (x :: s :: r :: rest)
  | _ => false

/-- Embedding of `SESSION_DIR_PATTERN.test p` for the regex
`\/agents\/[^/]+\/sessions\/`: since path segments contain no slash, the
regex matches exactly when the split of `p` on slashes has consecutive
segments "agents", a nonempty segment, "sessions", with "agents" not the
leading segment (it must be preceded by a slash) and "sessions" not the
final segment (it must be followed by a slash). -/
def sessionDirPatternTest (p : Chars) : Bool :=
  match splitSeg p with
  | _ :: rest => hasSessionTriple rest
  | [] => false

/-- Embedding of the sync module's `isSessionFile` (session `.jsonl` files,
deferred during restore). -/
def isSessionFile (relPath : Chars) : Bool :=
  sessionDirPatternTest relPath && ".jsonl".data.isSuffixOf relPath

/-! ### UTF-8 model

`bucket.put(key, string)` stores a JS string, while the binary upload path
stores raw bytes; `r2Object.text()` decodes stored raw bytes as UTF-8 with
U+FFFD replacement (the WHATWG decoder).  We model both with an explicit
encoder and lossy decoder on byte lists. -/

/-- UTF-8 encoding of a single scalar value. -/
def utf8EncChar (c : Char) : Bytes :=
  let n := c.toNat
  if n < 0x80 then [n]
  else if n < 0x800 then [0xC0 + n / 0x40, 0x80 + n % 0x40]
  else if n < 0x10000 then
    [0xE0 + n / 0x1000, 0x80 + (n / 0x40) % 0x40, 0x80 + n % 0x40]
  else
    [0xF0 + n / 0x40000, 0x80 + (n / 0x1000) % 0x40, 0x80 + (n / 0x40) % 0x40,
      0x80 + n % 0x40]

/-- UTF-8 encoding of a JS string. -/
def utf8Enc (s : Chars) : Bytes := (s.map utf8EncChar).flatten

/-- Continuation-byte test for the UTF-8 decoder. -/
def isCont (b : Nat) : Bool := 0x80 ≤ b && b ≤ 0xBF

/-- Lossy UTF-8 decoding (WHATWG `TextDecoder` with replacement): malformed
sequences yield U+FFFD and decoding resumes at the offending byte. -/
def utf8DecLossy : Bytes → Chars
  | [] => []
  | b :: rest =>
    if b ≤ 0x7F then Char.ofNat b :: utf8DecLossy rest
    else if 0xC2 ≤ b && b ≤ 0xDF then
      match rest with
      | [] => [Char.ofNat 0xFFFD]
      | b1 :: rest1 =>
        if isCont b1 then
          Char.ofNat ((b - 0xC0) * 0x40 + (b1 - 0x80)) :: utf8DecLossy rest1
        else Char.ofNat 0xFFFD :: utf8DecLossy (b1 :: rest1)
    else if 0xE0 ≤ b && b ≤ 0xEF then
      match rest with
      | [] => [Char.ofNat 0xFFFD]
      | b1 :: rest1 =>
        if (if b = 0xE0 then 0xA0 else 0x80) ≤ b1 &&
            b1 ≤ (if b = 0xED then 0x9F else 0xBF) then
          match rest1 with
          | [] => [Char.ofNat 0xFFFD]
          | b2 :: rest2 =>
            if isCont b2 then
              Char.ofNat ((b - 0xE0) * 0x1000 + (b1 - 0x80) * 0x40 + (b2 - 0x80)) ::
                utf8DecLossy rest2
            else Char.ofNat 0xFFFD :: utf8DecLossy (b2 :: rest2)
        else Char.ofNat 0xFFFD :: utf8DecLossy (b1 :: rest1)
    else if 0xF0 ≤ b && b ≤ 0xF4 then
      match rest with
      | [] => [Char.ofNat 0xFFFD]
      | b1 :: rest1 =>
        if (if b = 0xF0 then 0x90 else 0x80) ≤ b1 &&
            b1 ≤ (if b = 0xF4 then 0x8F else 0xBF) then
          match rest1 with
          | [] => [Char.ofNat 0xFFFD]
          | b2 :: rest2 =>
            if isCont b2 then
              match rest2 with
              | [] => [Char.ofNat 0xFFFD]
              | b3 :: rest3 =>
                if isCont b3 then
                  Char.ofNat ((b - 0xF0) * 0x40000 + (b1 - 0x80) * 0x1000 +
                      (b2 - 0x80) * 0x40 + (b3 - 0x80)) :: utf8DecLossy rest3
                else Char.ofNat 0xFFFD :: utf8DecLossy (b3 :: rest3)
            else Char.ofNat 0xFFFD :: utf8DecLossy (b2 :: rest2)
        else Char.ofNat 0xFFFD :: utf8DecLossy (b1 :: rest1)
    else Char.ofNat 0xFFFD :: utf8DecLossy rest

/-! ### File contents and the R2 bucket -/

/-- Content of a sandbox file or of a stored R2 object: either a JS string
(text files; `bucket.put(key, string)`) or raw bytes (binary files; the
base64 decode in `syncToR2` composed with `atob` is the identity on the
underlying bytes, so the binary upload path stores the file's raw bytes). -/
inductive FileData where
  | text (s : Chars)
  | bin (b : Bytes)
deriving DecidableEq, Repr

/-- Underlying bytes of a content value (a JS string denotes its UTF-8
encoding on disk and in R2). -/
def FileData.bytes : FileData → Bytes
  | .text s => utf8Enc s
  | .bin b => b

/-- Model of `r2Object.text()`: a string body is returned as is, a raw byte
body goes through lossy UTF-8 decoding. -/
def FileData.asText : FileData → Chars
  | .text s => s
  | .bin b => utf8DecLossy b

/-- The R2 bucket: key/value pairs, newest first, keys unique (a `put`
replaces any previous object at the same key). -/
abbrev Bucket := List (Chars × FileData)

/-- Model of `bucket.put(key, value)`. -/
def bucketPut (b : Bucket) (k : Chars) (v : FileData) : Bucket :=
  (k, v) :: b.filter (fun e => !(e.1 == k))

/-- Model of `bucket.get(key)` (`null` when absent). -/
def bucketGet (b : Bucket) (k : Chars) : Option FileData :=
  (b.find? (fun e => e.1 == k)).map (fun e => e.2)

/-- Model of `bucket.list(prefix)`; pagination is modelled as a single
page containing every matching object (`truncated = false`), which is the
union the do/while cursor loop traverses. -/
def bucketListPfx (b : Bucket) (pfx : Chars) : List (Chars × FileData) :=
  b.filter (fun e => pfx.isPrefixOf e.1)

/-- Apply a sequence of puts in order. -/
def applyPuts (b : Bucket) (ws : List (Chars × FileData)) : Bucket :=
  ws.foldl (fun acc kv => bucketPut acc kv.1 kv.2) b

/-! ### Sandbox filesystem -/

/-- One entry of a `sandbox.listFiles` result: its absolute path, whether
its `type` is `file`, whether `sandbox.readFile` succeeds on it, and its
content.  A read that reports binary/base64 hands `syncToR2` the base64 of
the raw bytes, which the upload path decodes back (`atob`), so the
observable content is the byte list itself. -/
structure FileEntry where
  absolutePath : Chars
  isFile : Bool
  readOk : Bool
  data : FileData
deriving DecidableEq, Repr

/-- The sandbox filesystem, as the collection of file entries. -/
abbrev SandboxFS := List FileEntry

/-- Model of `sandbox.exists(path)` for a file path. -/
def fsExists (fs : SandboxFS) (p : Chars) : Bool :=
  fs.any (fun f => f.absolutePath == p)

/-- Model of `sandbox.listFiles(dir, recursive + includeHidden)`: the
entries strictly under the directory.  A missing directory, which makes
`listFiles` throw and the sync step skip itself, is observationally the
empty listing. -/
def listFilesUnder (fs : SandboxFS) (dir : Chars) : List FileEntry :=
  fs.filter (fun f => (dir ++ "/".data).isPrefixOf f.absolutePath)

/-! ### syncToR2 -/

/-- Result record shared by sync and restore (`SyncResult`). -/
structure SyncResult where
  success : Bool
  lastSync : Option Chars := none
  error : Option Chars := none
  details : Option Chars := none
deriving DecidableEq, Repr

/-- One of the three sync step descriptors. -/
structure SyncStep where
  name : Chars
  sourcePath : Chars
  r2Pfx : Chars
  excludeDirs : List Chars
deriving DecidableEq, Repr

/-- The three sync steps of `syncToR2` (config, workspace, skills). -/
def syncSteps (configDir : Chars) : List SyncStep :=
  [ { name := "config".data, sourcePath := configDir,
      r2Pfx := "openclaw/".data, excludeDirs := [] },
    { name := "workspace".data, sourcePath := "/root/clawd".data,
      r2Pfx := "workspace/".data, excludeDirs := ["skills".data] },
    { name := "skills".data, sourcePath := "/root/clawd/skills".data,
      r2Pfx := "skills/".data, excludeDirs := [] } ]

/-- Current and legacy config marker files probed by `syncToR2` and by the
gateway supervisor's pre-start restore check. -/
def newConfigMarker : Chars := "/root/.openclaw/openclaw.json".data

/-- Legacy config marker path. -/
def legacyConfigMarker : Chars := "/root/.clawdbot/clawdbot.json".data

/-- Config-directory determination at the top of `syncToR2`: prefer the
current marker, fall back to the legacy one, otherwise abort. -/
def determineConfigDir (fs : SandboxFS) : Option Chars :=
  if fsExists fs newConfigMarker then some "/root/.openclaw".data
  else if fsExists fs legacyConfigMarker then some "/root/.clawdbot".data
  else none

/-- Relative path computation `file.absolutePath.slice(sourcePath.length + 1)`. -/
def stepRel (step : SyncStep) (absPath : Chars) : Chars :=
  absPath.drop (step.sourcePath.length + 1)

/-- The per-file decision of one sync step's loop body: skip non-files,
paths excluded by `shouldExclude` on the absolute path, paths under one of
the step's excluded subdirectories, and failed reads; upload everything
else under the step's R2 prefix. -/
def stepUploadOf (step : SyncStep) (f : FileEntry) : Option (Chars × FileData) :=
  if !f.isFile then none
  else if shouldExclude f.absolutePath then none
  else if step.excludeDirs.any
      (fun d => (d ++ "/".data).isPrefixOf (stepRel step f.absolutePath)) then none
  else if !f.readOk then none
  else some (step.r2Pfx ++ stepRel step f.absolutePath, f.data)

/-- The `bucket.put` calls issued by one sync step, in order. -/
def stepUploads (fs : SandboxFS) (step : SyncStep) : List (Chars × FileData) :=
  (listFilesUnder fs step.sourcePath).filterMap (stepUploadOf step)

/-- The key of the backup marker object. -/
def markerKey : Chars := ".last-sync".data

/-- Outcome of a `syncToR2` run: the returned result, the `bucket.put`
calls in order (backup marker last), and the resulting bucket. -/
structure SyncRun where
  result : SyncResult
  writes : List (Chars × FileData)
  bucket : Bucket
deriving Repr

/-- Embedding of `syncToR2`.  `configured` is whether `env.MOLTBOT_BUCKET`
is bound; `nowIso` is the `new Date().toISOString()` timestamp string. -/
def syncToR2 (configured : Bool) (fs : SandboxFS) (b0 : Bucket) (nowIso : Chars) :
    SyncRun :=
  if !configured then
    { result := { success := false, error := some "R2 storage is not configured".data },
      writes := [], bucket := b0 }
  else
    match determineConfigDir fs with
    | none =>
      { result :=
          { success := false,
            error := some "Sync aborted: no config file found".data,
            details :=
              some "Neither openclaw.json nor clawdbot.json found in config directory.".data },
        writes := [], bucket := b0 }
    | some configDir =>
      let ws := ((syncSteps configDir).map (stepUploads fs)).flatten ++
        [(markerKey, .text nowIso)]
      { result := { success := true, lastSync := some nowIso },
        writes := ws, bucket := applyPuts b0 ws }

/-! ### restoreFromR2 and restoreDeferredFiles -/

/-- One of the three restore step descriptors. -/
structure RestoreStep where
  r2Pfx : Chars
  targetPath : Chars
deriving DecidableEq, Repr

/-- The three restore steps of `restoreFromR2`. -/
def restoreSteps : List RestoreStep :=
  [ { r2Pfx := "openclaw/".data, targetPath := "/root/.openclaw".data },
    { r2Pfx := "workspace/".data, targetPath := "/root/clawd".data },
    { r2Pfx := "skills/".data, targetPath := "/root/clawd/skills".data } ]

/-- Objects considered by one restore step: the prefix listing with
zero-length relative keys discarded. -/
def restoreStepObjects (b : Bucket) (step : RestoreStep) : List (Chars × FileData) :=
  (bucketListPfx b step.r2Pfx).filter
    (fun e => 0 < (e.1.drop step.r2Pfx.length).length)

/-- Keys one restore step defers (session files, restored in the
background): not excluded, and matching the session pattern on the
slash-prefixed relative path. -/
def restoreStepDeferred (b : Bucket) (step : RestoreStep) : List Chars :=
  (restoreStepObjects b step).filterMap (fun e =>
    let rel := e.1.drop step.r2Pfx.length
    if shouldExclude rel then none
    else if isSessionFile ('/' :: rel) then some e.1
    else none)

/-- The `sandbox.writeFile(targetFile, content)` calls issued by one
restore step, in order: each immediate (non-excluded, non-session) object
is fetched and its `.text()` content written under the step's target path.
The fixed-size concurrency batches (5 at a time, `Promise.all`) issue the
same writes; an object whose re-fetch returns `null` is skipped. -/
def restoreStepWrites (b : Bucket) (step : RestoreStep) : List (Chars × Chars) :=
  (restoreStepObjects b step).filterMap (fun e =>
    let rel := e.1.drop step.r2Pfx.length
    if shouldExclude rel then none
    else if isSessionFile ('/' :: rel) then none
    else
      match bucketGet b e.1 with
      | none => none
      | some v => some (step.targetPath ++ "/".data ++ rel, v.asText))

/-- Outcome of a `restoreFromR2` run: the returned result, the deferred
keys handed back to the caller, and the `writeFile` calls in order. -/
structure RestoreRun where
  result : SyncResult
  deferredKeys : List Chars
  fsWrites : List (Chars × Chars)
deriving Repr

/-- Embedding of `restoreFromR2`. -/
def restoreFromR2 (configured : Bool) (b : Bucket) : RestoreRun :=
  if !configured then
    { result := { success := false, error := some "R2 storage is not configured".data },
      deferredKeys := [], fsWrites := [] }
  else
    match bucketGet b markerKey with
    | none =>
      { result := { success := true, details := some "No backup found".data },
        deferredKeys := [], fsWrites := [] }
    | some m =>
      { result := { success := true, lastSync := some m.asText },
        deferredKeys := (restoreSteps.map (restoreStepDeferred b)).flatten,
        fsWrites := (restoreSteps.map (restoreStepWrites b)).flatten }

/-- The prefix-to-target table of `restoreDeferredFiles`. -/
def pfxMap : List (Chars × Chars) :=
  [ ("openclaw/".data, "/root/.openclaw".data),
    ("workspace/".data, "/root/clawd".data),
    ("skills/".data, "/root/clawd/skills".data) ]

/-- Embedding of `restoreDeferredFiles`: the `writeFile` calls it issues
for previously-deferred keys.  Keys matching no prefix or with an empty
relative path are skipped, a `null` re-fetch is skipped, and per-key
mkdir/get/write failures are logged and skipped (batches of 3). -/
def deferredWrites (configured : Bool) (b : Bucket) (keys : List Chars) :
    List (Chars × Chars) :=
  if !configured || keys.isEmpty then []
  else keys.filterMap (fun key =>
    match pfxMap.find? (fun e => e.1.isPrefixOf key) with
    | none => none
    | some pt =>
      let rel := key.drop pt.1.length
      if rel.isEmpty then none
      else
        match bucketGet b key with
        | none => none
        | some v => some (pt.2 ++ "/".data ++ rel, v.asText))

/-- The content a sequence of `writeFile` calls leaves at a path (the last
write wins), `none` when the path was never written. -/
def lastWrite (ws : List (Chars × Chars)) (p : Chars) : Option Chars :=
  (ws.reverse.find? (fun e => e.1 == p)).map (fun e => e.2)

/-! ### Process descriptors and the classifier/reaper
(`src/gateway/process.ts`) -/

/-- Process status as reported by the sandbox backend. -/
inductive PStatus where
  | starting
  | running
  | stopped
  | dead
deriving DecidableEq, Repr

/-- A process descriptor: id, command string, status. -/
structure Proc where
  id : Chars
  command : Chars
  status : PStatus
deriving DecidableEq, Repr

/-- Gateway command-pattern test (`proc.command.includes` over the current
and legacy gateway command aliases). -/
def isGatewayProcess (p : Proc) : Bool :=
  decide ("start-openclaw.sh".data <:+: p.command) ||
  decide ("openclaw gateway".data <:+: p.command) ||
  decide ("start-moltbot.sh".data <:+: p.command) ||
  decide ("clawdbot gateway".data <:+: p.command)

/-- Ancillary-CLI command-pattern test. -/
def isCliCommand (p : Proc) : Bool :=
  decide ("openclaw devices".data <:+: p.command) ||
  decide ("openclaw --version".data <:+: p.command) ||
  decide ("openclaw onboard".data <:+: p.command) ||
  decide ("clawdbot devices".data <:+: p.command) ||
  decide ("clawdbot --version".data <:+: p.command)

/-- Status test `status === starting or running`. -/
def statusLive (p : Proc) : Bool :=
  p.status == .starting || p.status == .running

/-- The classifier loop of `findExistingMoltbotProcess`, with the mutable
`gatewayProcess` variable made an explicit accumulator: returns the
canonical gateway process (if any) and the zombie list, in listing order. -/
def classifyAux (gw : Option Proc) : List Proc → Option Proc × List Proc
  | [] => (gw, [])
  | p :: rest =>
    if isGatewayProcess p && !isCliCommand p then
      if statusLive p && gw.isNone then classifyAux (some p) rest
      else
        let r := classifyAux gw rest
        (r.1, p :: r.2)
    else if isCliCommand p && !(p.status == .running) && !(p.status == .starting) then
      let r := classifyAux gw rest
      (r.1, p :: r.2)
    else classifyAux gw rest

/-- Classification of a full process listing. -/
def classifyProcesses (ps : List Proc) : Option Proc × List Proc :=
  classifyAux none ps

/-! ### Process directory cache (`listProcessesCached`) -/

/-- Cache TTL (`PROCESS_LIST_TTL_MS`). -/
def PROCESS_LIST_TTL_MS : Nat := 3000

/-- Staleness bound for serving the cache on failure (`PROCESS_LIST_STALE_MS`). -/
def PROCESS_LIST_STALE_MS : Nat := 15000

/-- Start-throttle window (`START_THROTTLE_MS`). -/
def START_THROTTLE_MS : Nat := 15000

/-- The module-level mutable cache state of `process.ts`. -/
structure CacheState where
  cachedProcesses : Option (List Proc)
  cachedAt : Nat
  lastListError : Option Chars
  lastListErrorAt : Nat
deriving DecidableEq, Repr

/-- Initial module state (and the state after `resetProcessCache`). -/
def initialCacheState : CacheState :=
  { cachedProcesses := none, cachedAt := 0, lastListError := none, lastListErrorAt := 0 }

/-- The backend round trip of `listProcessesCached` (the promise body):
`tNow` is the `Date.now()` captured at entry, `tDone` the `Date.now()` at
completion, `backend` the outcome of `sandbox.listProcesses()`. -/
def runListBackend (st : CacheState) (tNow tDone : Nat)
    (backend : Except Chars (List Proc)) : Except Chars (List Proc) × CacheState :=
  match backend with
  | .ok ps =>
    (.ok ps,
      { cachedProcesses := some ps, cachedAt := tDone,
        lastListError := none, lastListErrorAt := 0 })
  | .error e =>
    let st2 : CacheState := { st with lastListError := some e, lastListErrorAt := tDone }
    match st.cachedProcesses with
    | some cp =>
      if tNow - st.cachedAt < PROCESS_LIST_STALE_MS then (.ok cp, st2)
      else (.error e, st2)
    | none => (.error e, st2)

/-- Embedding of `listProcessesCached` for one (sequential) call.  The
in-flight promise that deduplicates overlapping refreshes is always `null`
between sequential calls (cleared in the `finally`), so it does not appear
in this sequential model. -/
def listProcessesCached (st : CacheState) (tNow tDone : Nat)
    (backend : Except Chars (List Proc)) : Except Chars (List Proc) × CacheState :=
  match st.cachedProcesses with
  | some cp =>
    if tNow - st.cachedAt < PROCESS_LIST_TTL_MS then (.ok cp, st)
    else runListBackend st tNow tDone backend
  | none => runListBackend st tNow tDone backend

/-- Health record returned by `getProcessListHealth`. -/
def getProcessListHealth (st : CacheState) : Option Chars × Nat :=
  (st.lastListError, st.lastListErrorAt)

/-! ### findExistingMoltbotProcess -/

/-- Outcome of `findExistingMoltbotProcess`: the returned process (if
any), the zombie processes it issues exactly one `kill()` for each of
(failures swallowed), and the updated cache state (invalidated after any
kill). -/
structure FindResult where
  gw : Option Proc
  zombies : List Proc
  cache : CacheState
deriving DecidableEq, Repr

/-- Embedding of `findExistingMoltbotProcess`: a failed listing is caught
and turned into a `null` result. -/
def findExistingMoltbotProcess (st : CacheState) (tNow tDone : Nat)
    (backend : Except Chars (List Proc)) : FindResult :=
  match listProcessesCached st tNow tDone backend with
  | (.error _, st2) => { gw := none, zombies := [], cache := st2 }
  | (.ok ps, st2) =>
    let c := classifyProcesses ps
    let st3 :=
      if 0 < c.2.length then { st2 with cachedProcesses := none, cachedAt := 0 }
      else st2
    { gw := c.1, zombies := c.2, cache := st3 }

/-! ### ensureMoltbotGateway (sequential model)

One call of `ensureMoltbotGateway` in isolation (the in-flight start
future is `null` at entry and cleared in the `finally` at exit).  All
backend interactions of the call are supplied by a `GatewayOracle`;
the sandbox calls the code issues are reported as a `GEvent` trace. -/

/-- Logs record returned by `process.getLogs()`. -/
structure Logs where
  stdout : Chars
  stderr : Chars
deriving DecidableEq, Repr

/-- Observable sandbox calls of one `ensureMoltbotGateway` run. -/
inductive GEvent where
  | killProc (id : Chars)
  | restoreCall
  | startProcess
  | getLogsCall (id : Chars)
deriving DecidableEq, Repr

/-- Backend outcomes consumed by one `ensureMoltbotGateway` call. -/
structure GatewayOracle where
  backendListing : Except Chars (List Proc)
  existingWaitOk : Bool
  hasNewConfig : Bool
  hasLegacyConfig : Bool
  startResult : Except Chars Proc
  newWaitOk : Bool
  newWaitErr : Chars
  logsA : Except Chars Logs
  logsB : Except Chars Logs

/-- Message prefix tested by the catch handler to recognize its own
startup-failure error. -/
def startupFailMsgPfx : Chars := "OpenClaw gateway failed".data

/-- The descriptive startup error message, embedding the stderr excerpt
(template literal at the failed-wait path). -/
def startupErrMsg (stderr : Chars) : Chars :=
  "OpenClaw gateway failed to start. Stderr: ".data ++
    (if stderr.isEmpty then "(empty)".data else stderr)

/-- The throttling error message. -/
def throttledMsg : Chars := "Gateway start throttled (recent start attempt)".data

/-- The cleanup path after the start attempt's try block throws `waitErr`:
kill the process (best effort), attempt `getLogs` (outcome `logsNext`); on
log success raise the descriptive error, on log failure re-raise it only
when it carries the startup-failure prefix, otherwise raise `waitErr`. -/
def startFailCleanup (p : Proc) (waitErr : Chars) (logsNext : Except Chars Logs)
    (evs : List GEvent) : Except Chars Proc × List GEvent :=
  let evs2 := evs ++ [GEvent.killProc p.id, GEvent.getLogsCall p.id]
  match logsNext with
  | .ok lg => (.error (startupErrMsg lg.stderr), evs2)
  | .error le =>
    if startupFailMsgPfx.isPrefixOf le then (.error le, evs2)
    else (.error waitErr, evs2)

/-- The async start attempt (the IIFE body of `ensureMoltbotGateway`):
pre-start restore check, `startProcess`, port wait, log fetch; failure
cleanup as in `startFailCleanup`.  Note that on a successful port wait the
code still calls `getLogs` inside the same try block, so a throwing log
fetch there (`logsA`) diverts into the failure path with `logsB` as the
second log attempt. -/
def startAttempt (o : GatewayOracle) : Except Chars Proc × List GEvent :=
  let restoreEvs :=
    if !o.hasNewConfig && !o.hasLegacyConfig then [GEvent.restoreCall] else []
  match o.startResult with
  | .error e => (.error e, restoreEvs ++ [GEvent.startProcess])
  | .ok p =>
    let ev0 := restoreEvs ++ [GEvent.startProcess]
    if o.newWaitOk then
      match o.logsA with
      | .ok _ => (.ok p, ev0 ++ [GEvent.getLogsCall p.id])
      | .error le => startFailCleanup p le o.logsB (ev0 ++ [GEvent.getLogsCall p.id])
    else startFailCleanup p o.newWaitErr o.logsA ev0

/-- The throttle check and start attempt (lines after the existing-process
branch): `tNow` is the `Date.now()` read for the throttle comparison, also
recorded as the new `lastStartAttemptAt` when the attempt proceeds. -/
def ensureStartSection (lastStart tNow : Nat) (o : GatewayOracle) :
    Except Chars Proc × Nat × List GEvent :=
  if tNow - lastStart < START_THROTTLE_MS then (.error throttledMsg, lastStart, [])
  else
    let r := startAttempt o
    (r.1, tNow, r.2)

/-- Outcome of one sequential `ensureMoltbotGateway` call. -/
structure EnsureResult where
  result : Except Chars Proc
  cache : CacheState
  lastStartAttemptAt : Nat
  events : List GEvent
deriving Repr

/-- Embedding of one sequential `ensureMoltbotGateway` call.  `tList` and
`tListDone` are the times seen by the process-list cache, `tNow` the
`Date.now()` of the throttle check. -/
def ensureMoltbotGateway (cst : CacheState) (lastStart : Nat)
    (tList tListDone tNow : Nat) (o : GatewayOracle) : EnsureResult :=
  let fr := findExistingMoltbotProcess cst tList tListDone o.backendListing
  let zevs := fr.zombies.map (fun z => GEvent.killProc z.id)
  match fr.gw with
  | some p =>
    if o.existingWaitOk then
      { result := .ok p, cache := fr.cache, lastStartAttemptAt := lastStart,
        events := zevs }
    else
      let s := ensureStartSection lastStart tNow o
      { result := s.1, cache := fr.cache, lastStartAttemptAt := s.2.1,
        events := zevs ++ [GEvent.killProc p.id] ++ s.2.2 }
  | none =>
    let s := ensureStartSection lastStart tNow o
    { result := s.1, cache := fr.cache, lastStartAttemptAt := s.2.1,
      events := zevs ++ s.2.2 }

/-! ### Interleaving model of concurrent `ensureMoltbotGateway` callers

Small-step semantics for N overlapping callers in the single cooperative
execution context, for the scenario in which no gateway process exists
(every `findExistingMoltbotProcess` resolves to `null`).  Each scheduler
step `(i, t)` resumes caller `i` at time `t` and runs it synchronously to
its next suspension point:

* `entry`: the line-144 check `if (startInFlight) return startInFlight`,
  then the suspension into `findExistingMoltbotProcess`;
* `awaitingFind`: the resumption after `findExistingMoltbotProcess`
  returns `null`; the throttle check, `lastStartAttemptAt = now`, the
  creation of the start IIFE (which runs synchronously to its first await,
  the config `exists` probes) and the assignment of `startInFlight`;
* `inAttempt`: the IIFE resumes past the exists/restore awaits and calls
  `sandbox.startProcess`, then suspends in `waitForPort`;
* `awaitingPort`: the attempt settles and the creator's `finally`
  unconditionally clears `startInFlight`. -/

/-- Control point of one caller (plus its created start attempt). -/
inductive CallerPhase where
  | entry
  | awaitingFind
  | inAttempt
  | awaitingPort
  | joined (creator : Nat)
  | gotThrottled
  | finished
deriving DecidableEq, Repr

/-- Recorded shared-state transitions: a throttle-pass (`attempt`, setting
`lastStartAttemptAt` and `startInFlight`) and an actual
`sandbox.startProcess` call (`start`). -/
inductive MEvent where
  | attempt (t : Nat) (caller : Nat)
  | start (t : Nat) (caller : Nat)
deriving DecidableEq, Repr

/-- Shared module state plus per-caller control points and the event log. -/
structure Machine where
  slot : Option Nat
  lastStartAttemptAt : Nat
  phases : List CallerPhase
  events : List MEvent
deriving Repr

/-- Initial state for `n` callers: fresh module state, every caller about
to execute the line-144 check. -/
def initMachine (n : Nat) : Machine :=
  { slot := none, lastStartAttemptAt := 0,
    phases := List.replicate n .entry, events := [] }

/-- One scheduler step: resume caller `i` at time `t`. -/
def stepCaller (m : Machine) (i t : Nat) : Machine :=
  match m.phases.get? i with
  | none => m
  | some ph =>
    match ph with
    | .entry =>
      match m.slot with
      | some j => { m with phases := m.phases.set i (.joined j) }
      | none => { m with phases := m.phases.set i .awaitingFind }
    | .awaitingFind =>
      if t - m.lastStartAttemptAt < START_THROTTLE_MS then
        { m with phases := m.phases.set i .gotThrottled }
      else
        { m with lastStartAttemptAt := t, slot := some i,
                 phases := m.phases.set i .inAttempt,
                 events := m.events ++ [.attempt t i] }
    | .inAttempt =>
      { m with phases := m.phases.set i .awaitingPort,
               events := m.events ++ [.start t i] }
    | .awaitingPort =>
      { m with phases := m.phases.set i .finished, slot := none }
    | _ => m

/-- Run a schedule (list of `(caller, time)` resumptions). -/
def runMachine (n : Nat) (sched : List (Nat × Nat)) : Machine :=
  sched.foldl (fun m s => stepCaller m s.1 s.2) (initMachine n)

/-- Number of `sandbox.startProcess` calls issued so far. -/
def startCount (m : Machine) : Nat :=
  (m.events.filterMap (fun e =>
    match e with
    | .start t c => some (t, c)
    | _ => none)).length

/-- Number of throttle-passes (start attempts) so far. -/
def attemptCount (m : Machine) : Nat :=
  (m.events.filterMap (fun e =>
    match e with
    | .attempt t c => some (t, c)
    | _ => none)).length

/-- Number of callers currently at the given control point. -/
def phaseCount (m : Machine) (ph : CallerPhase) : Nat :=
  m.phases.countP (fun q => q == ph)

/-- The value the last `put` in a sequence leaves at a key. -/
def lastPutVal (ws : List (Chars × FileData)) (k : Chars) : Option FileData :=
  (ws.reverse.find? (fun e => e.1 == k)).map (fun e => e.2)

/-- Run invariant of the interleaving machine for schedules whose
resumption times all lie in the half-open window from `T` (at least one
throttle width above time zero) spanning one throttle width. -/
def MachineInv (T : Nat) (m : Machine) : Prop :=
  (attemptCount m =
    phaseCount m .inAttempt + phaseCount m .awaitingPort + phaseCount m .finished) ∧
  (startCount m = phaseCount m .awaitingPort + phaseCount m .finished) ∧
  ((m.lastStartAttemptAt = 0 ∧ attemptCount m = 0) ∨
    (T ≤ m.lastStartAttemptAt ∧ m.lastStartAttemptAt < T + START_THROTTLE_MS ∧
      attemptCount m = 1)) ∧
  (∀ j, m.slot = some j →
    m.phases.get? j = some .inAttempt ∨ m.phases.get? j = some .awaitingPort) ∧
  (∀ j ph, m.phases.get? j = some ph → ph ≠ .entry → ph ≠ .awaitingFind →
    1 ≤ attemptCount m)

/-! ## Helper lemmas -/

theorem countP_set_eq {α : Type} (p : α → Bool) (v w : α) :
    ∀ (l : List α) (i : Nat), l.get? i = some w →
      (l.set i v).countP p + (if p w then 1 else 0) =
        l.countP p + (if p v then 1 else 0)
  | [], i, h => by simp at h
  | x :: xs, 0, h => by
    simp at h
    subst h
    simp [List.countP_cons]
    omega
  | x :: xs, i + 1, h => by
    simp only [List.get?_cons_succ] at h
    have ih := countP_set_eq p v w xs i h
    simp only [List.set, List.countP_cons]
    omega

theorem countP_pos_of_get? {α : Type} (p : α → Bool) (l : List α) (i : Nat) (e : α)
    (h : l.get? i = some e) (hp : p e = true) : 1 ≤ l.countP p := by
  have hm : e ∈ l := List.get?_mem h
  have hmem : e ∈ l.filter p := List.mem_filter.mpr ⟨hm, hp⟩
  have := List.length_pos.mpr (List.ne_nil_of_mem hmem)
  calc 1 ≤ (l.filter p).length := this
    _ = l.countP p := (List.countP_eq_length_filter p l).symm

theorem isPrefixOf_append_self (p r : Chars) : p.isPrefixOf (p ++ r) = true := by
  rw [List.isPrefixOf_iff_prefix]
  exact p.prefix_append r

theorem not_prefix_append_of_head_ne (c1 c2 : Char) (t1 t2 r : Chars) (h : c1 ≠ c2) :
    ¬ ((c1 :: t1) <+: (c2 :: t2) ++ r) := by
  rw [List.cons_append, List.cons_prefix_cons]
  exact fun hc => h hc.1

theorem not_prefix_cons_of_head_ne (c1 c2 : Char) (t1 t2 : Chars) (h : c1 ≠ c2) :
    ¬ ((c1 :: t1) <+: (c2 :: t2)) := by
  rw [List.cons_prefix_cons]
  exact fun hc => h hc.1

theorem cons_append_ne_of_head (a b : Char) (t r t2 : Chars) (h : a ≠ b) :
    (a :: t) ++ r ≠ b :: t2 := by
  intro he
  rw [List.cons_append] at he
  injection he with h1 _
  exact h h1

theorem append_ne_of_get? (p1 p2 : Chars) (i : Nat) (c1 c2 : Char)
    (h1 : p1.get? i = some c1) (h2 : p2.get? i = some c2) (hc : c1 ≠ c2)
    (r1 r2 : Chars) : p1 ++ r1 ≠ p2 ++ r2 := by
  intro he
  have hl1 : i < p1.length := List.get?_eq_some.mp h1 |>.1
  have hl2 : i < p2.length := List.get?_eq_some.mp h2 |>.1
  have e1 : (p1 ++ r1).get? i = some c1 := by
    rw [List.get?_append hl1]
    exact h1
  have e2 : (p2 ++ r2).get? i = some c2 := by
    rw [List.get?_append hl2]
    exact h2
  rw [he, e2] at e1
  exact hc (Option.some.inj e1).symm

theorem find?_filter_of_imp {α : Type} (p q : α → Bool)
    (himp : ∀ x, p x = true → q x = true) :
    ∀ l : List α, (l.filter q).find? p = l.find? p
  | [] => rfl
  | x :: l => by
    have ih := find?_filter_of_imp p q himp l
    by_cases hq : q x = true
    · by_cases hp : p x = true
      · simp [List.filter_cons, hq, List.find?_cons, hp]
      · simp [List.filter_cons, hq, List.find?_cons, hp, ih]
    · have hp : ¬ (p x = true) := fun hp => hq (himp x hp)
      simp [List.filter_cons, hq, List.find?_cons, hp, ih]

theorem bucketGet_put_self (b : Bucket) (k : Chars) (v : FileData) :
    bucketGet (bucketPut b k v) k = some v := by
  simp [bucketGet, bucketPut, List.find?_cons]

theorem bucketGet_put_ne (b : Bucket) (k k2 : Chars) (v : FileData) (h : k2 ≠ k) :
    bucketGet (bucketPut b k v) k2 = bucketGet b k2 := by
  have hk : ((k, v).1 == k2) = false := by
    simp
    exact fun he => h he.symm
  have hfil : (b.filter (fun e => !(e.1 == k))).find? (fun e => e.1 == k2) =
      b.find? (fun e => e.1 == k2) := by
    apply find?_filter_of_imp
    intro x hx
    simp at hx ⊢
    rw [hx]
    exact fun he => h he
  simp only [bucketGet, bucketPut, List.find?_cons, hk, hfil]

theorem lastPutVal_mem (ws : List (Chars × FileData)) (k : Chars) (v : FileData)
    (h : lastPutVal ws k = some v) : (k, v) ∈ ws := by
  unfold lastPutVal at h
  cases hf : ws.reverse.find? (fun e => e.1 == k) with
  | none => rw [hf] at h; cases h
  | some e =>
    rw [hf] at h
    have hmem := List.mem_of_find?_eq_some hf
    have hp := List.find?_some hf
    have hk : e.1 = k := by simpa using hp
    have hv : e.2 = v := by simpa using h
    have : e = (k, v) := by
      cases e
      simp at hk hv
      rw [hk, hv]
    rw [← this]
    exact List.mem_reverse.mp hmem

theorem lastPutVal_isSome_of_mem (ws : List (Chars × FileData)) (k : Chars)
    (v : FileData) (h : (k, v) ∈ ws) : ∃ v2, lastPutVal ws k = some v2 := by
  unfold lastPutVal
  have hmem : (k, v) ∈ ws.reverse := List.mem_reverse.mpr h
  have hs : (ws.reverse.find? (fun e => e.1 == k)).isSome := by
    rw [List.find?_isSome]
    exact ⟨(k, v), hmem, by simp⟩
  cases hf : ws.reverse.find? (fun e => e.1 == k) with
  | none => rw [hf] at hs; cases hs
  | some e => exact ⟨e.2, rfl⟩

theorem lastPutVal_append_last (ws : List (Chars × FileData)) (k : Chars)
    (v : FileData) : lastPutVal (ws ++ [(k, v)]) k = some v := by
  unfold lastPutVal
  rw [List.reverse_append]
  simp [List.find?_cons]

theorem lastPutVal_cons (w : Chars × FileData) (ws : List (Chars × FileData))
    (k : Chars) :
    lastPutVal (w :: ws) k =
      (lastPutVal ws k).or (if (w.1 == k) = true then some w.2 else none) := by
  unfold lastPutVal
  rw [List.reverse_cons, List.find?_append]
  cases hf : ws.reverse.find? (fun e => e.1 == k) with
  | some e => simp [Option.or]
  | none =>
    by_cases hw : (w.1 == k) = true <;> simp [Option.or, List.find?_cons, hw]

theorem bucketGet_applyPuts (k : Chars) :
    ∀ (ws : List (Chars × FileData)) (b : Bucket),
      bucketGet (applyPuts b ws) k = (lastPutVal ws k).or (bucketGet b k)
  | [], b => by simp [lastPutVal, applyPuts, Option.or]
  | w :: ws, b => by
    have ih := bucketGet_applyPuts k ws (bucketPut b w.1 w.2)
    show bucketGet (applyPuts (bucketPut b w.1 w.2) ws) k = _
    rw [ih, lastPutVal_cons]
    by_cases hw : (w.1 == k) = true
    · have hk : w.1 = k := by simpa using hw
      have hput : bucketGet (bucketPut b w.1 w.2) k = some w.2 := by
        rw [hk]
        exact bucketGet_put_self b k w.2
      rw [hput, hw]
      cases lastPutVal ws k <;> simp [Option.or]
    · have hk : k ≠ w.1 := by
        intro he
        exact hw (by simp [he])
      rw [bucketGet_put_ne b w.1 k w.2 hk]
      rw [if_neg hw]
      cases lastPutVal ws k <;> cases bucketGet b k <;> simp [Option.or]

theorem applyPuts_mem (e : Chars × FileData) :
    ∀ (ws : List (Chars × FileData)) (b : Bucket), e ∈ applyPuts b ws →
      e ∈ ws ∨ e ∈ b
  | [], b, h => Or.inr h
  | w :: ws, b, h => by
    have ih := applyPuts_mem e ws (bucketPut b w.1 w.2) h
    rcases ih with ih | ih
    · exact Or.inl (List.mem_cons_of_mem w ih)
    · unfold bucketPut at ih
      rcases List.mem_cons.mp ih with ih | ih
      · left
        rw [ih]
        exact List.mem_cons_self _ _
      · exact Or.inr (List.mem_of_mem_filter ih)

theorem bucketGet_mem (b : Bucket) (k : Chars) (v : FileData)
    (h : bucketGet b k = some v) : (k, v) ∈ b := by
  unfold bucketGet at h
  cases hf : b.find? (fun e => e.1 == k) with
  | none => rw [hf] at h; cases h
  | some e =>
    rw [hf] at h
    have he : e ∈ b := List.mem_of_find?_eq_some hf
    have hk : e.1 = k := by simpa using List.find?_some hf
    have hv : e.2 = v := by simpa using h
    have : e = (k, v) := by
      cases e
      simp at hk hv
      rw [hk, hv]
    rw [← this]
    exact he

theorem bucketGet_of_mem_nodup (b : Bucket) (k : Chars) (v : FileData)
    (hmem : (k, v) ∈ b) (hnd : (b.map Prod.fst).Nodup) : bucketGet b k = some v := by
  induction b with
  | nil => cases hmem
  | cons e rest ih =>
    rw [List.map_cons, List.nodup_cons] at hnd
    rcases List.mem_cons.mp hmem with he | he
    · rw [← he]
      simp [bucketGet, List.find?_cons]
    · have hne : (e.1 == k) = false := by
        simp
        intro heq
        exact hnd.1 (heq ▸ List.mem_map_of_mem Prod.fst he)
      unfold bucketGet
      rw [List.find?_cons, hne]
      exact ih he hnd.2

theorem lastWrite_eq_of_unique (ws : List (Chars × Chars)) (pth c : Chars)
    (hex : ∃ e ∈ ws, e.1 = pth ∧ e.2 = c)
    (huniq : ∀ e ∈ ws, e.1 = pth → e.2 = c) : lastWrite ws pth = some c := by
  unfold lastWrite
  obtain ⟨e0, he0, hp0, _⟩ := hex
  have hsome : (ws.reverse.find? (fun e => e.1 == pth)).isSome := by
    rw [List.find?_isSome]
    exact ⟨e0, List.mem_reverse.mpr he0, by simp [hp0]⟩
  cases hf : ws.reverse.find? (fun e => e.1 == pth) with
  | none => rw [hf] at hsome; cases hsome
  | some e =>
    have he : e ∈ ws := List.mem_reverse.mp (List.mem_of_find?_eq_some hf)
    have hk : e.1 = pth := by simpa using List.find?_some hf
    simp [huniq e he hk]

theorem lastWrite_eq_none (ws : List (Chars × Chars)) (pth : Chars)
    (h : ∀ e ∈ ws, e.1 ≠ pth) : lastWrite ws pth = none := by
  unfold lastWrite
  have : ws.reverse.find? (fun e => e.1 == pth) = none := by
    rw [List.find?_eq_none]
    intro e he
    simp
    exact h e (List.mem_reverse.mp he)
  rw [this]
  rfl

theorem stepRel_append (st : SyncStep) (rel : Chars) :
    stepRel st (st.sourcePath ++ "/".data ++ rel) = rel := by
  unfold stepRel
  have h2 : (st.sourcePath ++ "/".data).length = st.sourcePath.length + 1 := by
    simp
  rw [← h2]
  exact List.drop_left _ _

theorem drop_length_append (p r : Chars) : (p ++ r).drop p.length = r :=
  List.drop_left p r

theorem restoreFromR2_marker (b : Bucket) (m : FileData)
    (hm : bucketGet b markerKey = some m) :
    restoreFromR2 true b =
      { result := { success := true, lastSync := some m.asText },
        deferredKeys := (restoreSteps.map (restoreStepDeferred b)).flatten,
        fsWrites := (restoreSteps.map (restoreStepWrites b)).flatten } := by
  simp [restoreFromR2, hm]

theorem restoreStepObjects_mem (b : Bucket) (s : RestoreStep) (k : Chars)
    (v : FileData) (hmem : (k, v) ∈ b) (hpfx : s.r2Pfx.isPrefixOf k = true)
    (hlen : 0 < (k.drop s.r2Pfx.length).length) : (k, v) ∈ restoreStepObjects b s := by
  unfold restoreStepObjects bucketListPfx
  refine List.mem_filter.mpr ⟨List.mem_filter.mpr ⟨hmem, hpfx⟩, ?_⟩
  simpa using hlen

theorem restoreStepObjects_inv (b : Bucket) (s : RestoreStep) (e : Chars × FileData)
    (h : e ∈ restoreStepObjects b s) :
    e ∈ b ∧ s.r2Pfx.isPrefixOf e.1 = true ∧ 0 < (e.1.drop s.r2Pfx.length).length := by
  unfold restoreStepObjects bucketListPfx at h
  have h1 := List.mem_filter.mp h
  have h2 := List.mem_filter.mp h1.1
  exact ⟨h2.1, h2.2, by simpa using h1.2⟩

theorem restoreStepWrites_mem (b : Bucket) (s : RestoreStep) (k : Chars)
    (v v2 : FileData) (hobj : (k, v) ∈ restoreStepObjects b s)
    (hx : shouldExclude (k.drop s.r2Pfx.length) = false)
    (hsess : isSessionFile ('/' :: k.drop s.r2Pfx.length) = false)
    (hget : bucketGet b k = some v2) :
    (s.targetPath ++ "/".data ++ k.drop s.r2Pfx.length, v2.asText) ∈
      restoreStepWrites b s := by
  unfold restoreStepWrites
  apply List.mem_filterMap.mpr
  refine ⟨(k, v), hobj, ?_⟩
  simp [hx, hsess, hget]

theorem restoreStepWrites_inv (b : Bucket) (s : RestoreStep) (e : Chars × Chars)
    (h : e ∈ restoreStepWrites b s) :
    ∃ k v, (k, v) ∈ b ∧ s.r2Pfx.isPrefixOf k = true ∧
      0 < (k.drop s.r2Pfx.length).length ∧
      shouldExclude (k.drop s.r2Pfx.length) = false ∧
      isSessionFile ('/' :: k.drop s.r2Pfx.length) = false ∧
      ∃ v2, bucketGet b k = some v2 ∧
        e = (s.targetPath ++ "/".data ++ k.drop s.r2Pfx.length, v2.asText) := by
  unfold restoreStepWrites at h
  obtain ⟨⟨k, v⟩, hobj, hsome⟩ := List.mem_filterMap.mp h
  obtain ⟨hb, hpfx, hlen⟩ := restoreStepObjects_inv b s (k, v) hobj
  refine ⟨k, v, hb, hpfx, hlen, ?_⟩
  by_cases hx : shouldExclude (k.drop s.r2Pfx.length) = true
  · simp [hx] at hsome
  · rw [Bool.not_eq_true] at hx
    by_cases hs2 : isSessionFile ('/' :: k.drop s.r2Pfx.length) = true
    · simp [hx, hs2] at hsome
    · rw [Bool.not_eq_true] at hs2
      cases hget : bucketGet b k with
      | none => simp [hx, hs2, hget] at hsome
      | some v2 =>
        simp only [hx, hs2, hget] at hsome
        simp at hsome
        refine ⟨hx, hs2, v2, rfl, ?_⟩
        rw [← hsome, List.append_assoc]
        rfl

theorem restoreStepDeferred_mem (b : Bucket) (s : RestoreStep) (k : Chars)
    (v : FileData) (hobj : (k, v) ∈ restoreStepObjects b s)
    (hx : shouldExclude (k.drop s.r2Pfx.length) = false)
    (hsess : isSessionFile ('/' :: k.drop s.r2Pfx.length) = true) :
    k ∈ restoreStepDeferred b s := by
  unfold restoreStepDeferred
  exact List.mem_filterMap.mpr ⟨(k, v), hobj, by simp [hx, hsess]⟩

theorem stepUploadOf_eq (st : SyncStep) (f : FileEntry)
    (h1 : f.isFile = true) (h2 : shouldExclude f.absolutePath = false)
    (h3 : st.excludeDirs.any
      (fun d => (d ++ "/".data).isPrefixOf (stepRel st f.absolutePath)) = false)
    (h4 : f.readOk = true) :
    stepUploadOf st f = some (st.r2Pfx ++ stepRel st f.absolutePath, f.data) := by
  simp [stepUploadOf, h1, h2, h3, h4]

theorem stepUploadOf_inv (st : SyncStep) (f : FileEntry) (e : Chars × FileData)
    (h : stepUploadOf st f = some e) :
    f.isFile = true ∧ shouldExclude f.absolutePath = false ∧
    st.excludeDirs.any
      (fun d => (d ++ "/".data).isPrefixOf (stepRel st f.absolutePath)) = false ∧
    f.readOk = true ∧ e = (st.r2Pfx ++ stepRel st f.absolutePath, f.data) := by
  unfold stepUploadOf at h
  by_cases h1 : f.isFile = true
  · by_cases h2 : shouldExclude f.absolutePath = true
    · simp [h1, h2] at h
    · rw [Bool.not_eq_true] at h2
      by_cases h3 : st.excludeDirs.any
          (fun d => (d ++ "/".data).isPrefixOf (stepRel st f.absolutePath)) = true
      · simp [h1, h2, h3] at h
      · rw [Bool.not_eq_true] at h3
        by_cases h4 : f.readOk = true
        · simp only [h1, h2, h3, h4] at h
          simp at h
          exact ⟨h1, h2, h3, h4, h.symm⟩
        · rw [Bool.not_eq_true] at h4
          simp [h1, h2, h3, h4] at h
  · rw [Bool.not_eq_true] at h1
    simp [h1] at h

theorem determineConfigDir_new (fs : SandboxFS)
    (h : fsExists fs newConfigMarker = true) :
    determineConfigDir fs = some "/root/.openclaw".data := by
  simp [determineConfigDir, h]

theorem syncToR2_with_config (fs : SandboxFS) (b0 : Bucket) (nowIso : Chars)
    (cfgDir : Chars) (hdet : determineConfigDir fs = some cfgDir) :
    syncToR2 true fs b0 nowIso =
      { result := { success := true, lastSync := some nowIso },
        writes := ((syncSteps cfgDir).map (stepUploads fs)).flatten ++
          [(markerKey, .text nowIso)],
        bucket := applyPuts b0 (((syncSteps cfgDir).map (stepUploads fs)).flatten ++
          [(markerKey, .text nowIso)]) } := by
  simp [syncToR2, hdet]

theorem isPrefixOf_eq_false_of_not (p l : Chars) (h : ¬ (p <+: l)) :
    p.isPrefixOf l = false := by
  rw [Bool.eq_false_iff]
  intro hc
  exact h (List.isPrefixOf_iff_prefix.mp hc)

theorem not_pfx_o_w (rel : Chars) :
    ("openclaw/".data).isPrefixOf ("workspace/".data ++ rel) = false :=
  isPrefixOf_eq_false_of_not _ _
    (not_prefix_append_of_head_ne 'o' 'w' "penclaw/".data "orkspace/".data rel
      (by decide))

theorem not_pfx_o_s (rel : Chars) :
    ("openclaw/".data).isPrefixOf ("skills/".data ++ rel) = false :=
  isPrefixOf_eq_false_of_not _ _
    (not_prefix_append_of_head_ne 'o' 's' "penclaw/".data "kills/".data rel
      (by decide))

theorem not_pfx_w_s (rel : Chars) :
    ("workspace/".data).isPrefixOf ("skills/".data ++ rel) = false :=
  isPrefixOf_eq_false_of_not _ _
    (not_prefix_append_of_head_ne 'w' 's' "orkspace/".data "kills/".data rel
      (by decide))

theorem restoreSteps_pfx_unique (step s2 : RestoreStep) (rel : Chars)
    (hstep : step ∈ restoreSteps) (hs2 : s2 ∈ restoreSteps)
    (hpfx : s2.r2Pfx.isPrefixOf (step.r2Pfx ++ rel) = true) : s2 = step := by
  rw [List.isPrefixOf_iff_prefix] at hpfx
  fin_cases hstep <;> fin_cases hs2 <;>
    first
      | rfl
      | exact absurd (List.cons_prefix_cons.mp hpfx).1 (by decide)

theorem append_head_ne (c1 c2 : Char) (t1 t2 r1 r2 : Chars) (h : c1 ≠ c2) :
    (c1 :: t1) ++ r1 ≠ (c2 :: t2) ++ r2 := by
  intro he
  rw [List.cons_append, List.cons_append] at he
  injection he with h1 _
  exact h h1

theorem not_pfx_w_o (rel : Chars) :
    ("workspace/".data).isPrefixOf ("openclaw/".data ++ rel) = false :=
  isPrefixOf_eq_false_of_not _ _
    (not_prefix_append_of_head_ne 'w' 'o' "orkspace/".data "penclaw/".data rel
      (by decide))

theorem not_pfx_s_o (rel : Chars) :
    ("skills/".data).isPrefixOf ("openclaw/".data ++ rel) = false :=
  isPrefixOf_eq_false_of_not _ _
    (not_prefix_append_of_head_ne 's' 'o' "kills/".data "penclaw/".data rel
      (by decide))

theorem not_pfx_s_w (rel : Chars) :
    ("skills/".data).isPrefixOf ("workspace/".data ++ rel) = false :=
  isPrefixOf_eq_false_of_not _ _
    (not_prefix_append_of_head_ne 's' 'w' "kills/".data "orkspace/".data rel
      (by decide))

theorem restoreSteps_pfx_not_marker (s2 : RestoreStep) (hs2 : s2 ∈ restoreSteps) :
    s2.r2Pfx.isPrefixOf markerKey = false := by
  fin_cases hs2 <;> decide

theorem sync_restore_step_match (st2 : SyncStep) (s2 : RestoreStep) (relU : Chars)
    (hst2 : st2 ∈ syncSteps "/root/.openclaw".data) (hs2 : s2 ∈ restoreSteps)
    (hp : s2.r2Pfx.isPrefixOf (st2.r2Pfx ++ relU) = true) :
    s2.r2Pfx = st2.r2Pfx ∧ s2.targetPath = st2.sourcePath := by
  fin_cases hst2 <;> fin_cases hs2 <;>
    first
      | exact ⟨rfl, rfl⟩
      | simp [not_pfx_o_w, not_pfx_o_s, not_pfx_w_s, not_pfx_w_o, not_pfx_s_o,
          not_pfx_s_w] at hp

theorem syncSteps_pfx_unique (step st2 : SyncStep) (rel relU : Chars)
    (hstep : step ∈ syncSteps "/root/.openclaw".data)
    (hst2 : st2 ∈ syncSteps "/root/.openclaw".data)
    (heq : st2.r2Pfx ++ relU = step.r2Pfx ++ rel) : st2 = step := by
  fin_cases hstep <;> fin_cases hst2 <;>
    first
      | rfl
      | exact absurd heq (append_head_ne _ _ _ _ _ _ (by decide))

theorem stepUploads_key_shape (fs : SandboxFS) (st2 : SyncStep) (e : Chars × FileData)
    (h : e ∈ stepUploads fs st2) :
    ∃ f2 relU, f2 ∈ fs ∧ f2.absolutePath = st2.sourcePath ++ "/".data ++ relU ∧
      e = (st2.r2Pfx ++ relU, f2.data) ∧
      st2.excludeDirs.any (fun d => (d ++ "/".data).isPrefixOf relU) = false := by
  obtain ⟨f2, hf2, hup⟩ := List.mem_filterMap.mp h
  obtain ⟨_, _, hxd2, _, hee⟩ := stepUploadOf_inv st2 f2 e hup
  have hmf := List.mem_filter.mp hf2
  obtain ⟨t, ht⟩ := List.isPrefixOf_iff_prefix.mp hmf.2
  have habs2 : f2.absolutePath = st2.sourcePath ++ "/".data ++ t := ht.symm
  have hrelt : stepRel st2 f2.absolutePath = t := by
    rw [habs2]
    exact stepRel_append st2 t
  refine ⟨f2, t, hmf.1, habs2, ?_, ?_⟩
  · rw [hee, hrelt]
  · rw [← hrelt]
    exact hxd2

theorem sync_target_collision (step st2 : SyncStep) (rel relU : Chars)
    (hstep : step ∈ syncSteps "/root/.openclaw".data)
    (hst2 : st2 ∈ syncSteps "/root/.openclaw".data)
    (heq : st2.sourcePath ++ "/".data ++ relU = step.sourcePath ++ "/".data ++ rel)
    (hxd : step.excludeDirs.any (fun d => (d ++ "/".data).isPrefixOf rel) = false)
    (hxd2 : st2.excludeDirs.any (fun d => (d ++ "/".data).isPrefixOf relU) = false) :
    st2 = step ∧ relU = rel := by
  fin_cases hstep <;> fin_cases hst2
  · refine ⟨rfl, ?_⟩
    have h := congrArg (List.drop 16) heq
    have h1 : ("/root/.openclaw".data ++ "/".data ++ relU).drop 16 = relU := by
      have hd := List.drop_left "/root/.openclaw/".data relU
      exact hd
    have h2 : ("/root/.openclaw".data ++ "/".data ++ rel).drop 16 = rel := by
      have hd := List.drop_left "/root/.openclaw/".data rel
      exact hd
    rw [h1, h2] at h
    exact h
  · exact absurd heq (append_ne_of_get? ("/root/clawd".data ++ "/".data)
      ("/root/.openclaw".data ++ "/".data) 6 'c' '.' (by decide) (by decide)
      (by decide) relU rel)
  · exact absurd heq (append_ne_of_get? ("/root/clawd/skills".data ++ "/".data)
      ("/root/.openclaw".data ++ "/".data) 6 'c' '.' (by decide) (by decide)
      (by decide) relU rel)
  · exact absurd heq (append_ne_of_get? ("/root/.openclaw".data ++ "/".data)
      ("/root/clawd".data ++ "/".data) 6 '.' 'c' (by decide) (by decide)
      (by decide) relU rel)
  · refine ⟨rfl, ?_⟩
    have h := congrArg (List.drop 12) heq
    have h1 : ("/root/clawd".data ++ "/".data ++ relU).drop 12 = relU := by
      have hd := List.drop_left "/root/clawd/".data relU
      exact hd
    have h2 : ("/root/clawd".data ++ "/".data ++ rel).drop 12 = rel := by
      have hd := List.drop_left "/root/clawd/".data rel
      exact hd
    rw [h1, h2] at h
    exact h
  · exfalso
    have h := congrArg (List.drop 12) heq
    have h1 : ("/root/clawd/skills".data ++ "/".data ++ relU).drop 12 =
        "skills/".data ++ relU := by
      have hd := List.drop_left "/root/clawd/".data ("skills/".data ++ relU)
      exact hd
    have h2 : ("/root/clawd".data ++ "/".data ++ rel).drop 12 = rel := by
      have hd := List.drop_left "/root/clawd/".data rel
      exact hd
    rw [h1, h2] at h
    have hpref : ("skills".data ++ "/".data).isPrefixOf rel = true := by
      rw [← h]
      exact isPrefixOf_append_self ("skills/".data) relU
    simp [List.any_cons, List.any_nil] at hxd
    have hpref2 : (['s', 'k', 'i', 'l', 'l', 's', '/'] : Chars).isPrefixOf rel = true :=
      hpref
    rw [hpref2] at hxd
    simp at hxd
  · exact absurd heq (append_ne_of_get? ("/root/.openclaw".data ++ "/".data)
      ("/root/clawd/skills".data ++ "/".data) 6 '.' 'c' (by decide) (by decide)
      (by decide) relU rel)
  · exfalso
    have h := congrArg (List.drop 12) heq
    have h1 : ("/root/clawd".data ++ "/".data ++ relU).drop 12 = relU := by
      have hd := List.drop_left "/root/clawd/".data relU
      exact hd
    have h2 : ("/root/clawd/skills".data ++ "/".data ++ rel).drop 12 =
        "skills/".data ++ rel := by
      have hd := List.drop_left "/root/clawd/".data ("skills/".data ++ rel)
      exact hd
    rw [h1, h2] at h
    have hpref : ("skills".data ++ "/".data).isPrefixOf relU = true := by
      rw [h]
      exact isPrefixOf_append_self ("skills/".data) rel
    simp [List.any_cons, List.any_nil] at hxd2
    have hpref2 : (['s', 'k', 'i', 'l', 'l', 's', '/'] : Chars).isPrefixOf relU = true :=
      hpref
    rw [hpref2] at hxd2
    simp at hxd2
  · refine ⟨rfl, ?_⟩
    have h := congrArg (List.drop 19) heq
    have h1 : ("/root/clawd/skills".data ++ "/".data ++ relU).drop 19 = relU := by
      have hd := List.drop_left "/root/clawd/skills/".data relU
      exact hd
    have h2 : ("/root/clawd/skills".data ++ "/".data ++ rel).drop 19 = rel := by
      have hd := List.drop_left "/root/clawd/skills/".data rel
      exact hd
    rw [h1, h2] at h
    exact h

theorem classifyAux_some_fst (q : Proc) : ∀ l : List Proc, (classifyAux (some q) l).1 = some q
  | [] => rfl
  | p :: rest => by
    have ih := classifyAux_some_fst q rest
    unfold classifyAux
    by_cases h1 : (isGatewayProcess p && !isCliCommand p) = true
    · simp [h1, ih]
    · by_cases h2 :
        (isCliCommand p && !(p.status == .running) && !(p.status == .starting)) = true
      · simp [h1, h2, ih]
      · simp [h1, h2, ih]

theorem classifyAux_some_zombies_count (q p : Proc)
    (hp : (isGatewayProcess p && !isCliCommand p) = true) :
    ∀ l : List Proc, (classifyAux (some q) l).2.count p = l.count p
  | [] => by simp [classifyAux]
  | x :: rest => by
    have ih := classifyAux_some_zombies_count q p hp rest
    unfold classifyAux
    by_cases h1 : (isGatewayProcess x && !isCliCommand x) = true
    · simp [h1, List.count_cons, ih]
    · by_cases h2 :
        (isCliCommand x && !(x.status == .running) && !(x.status == .starting)) = true
      · simp [h1, h2, List.count_cons, ih]
      · have hxp : ¬ (p = x) := by
          intro he
          rw [← he] at h1
          exact h1 hp
        simp [h1, h2, List.count_cons, ih, hxp]

theorem classify_zombies_count (p : Proc)
    (hp : (isGatewayProcess p && !isCliCommand p) = true) :
    ∀ ps : List Proc,
      ps.count p = (classifyProcesses ps).2.count p +
        (if (classifyProcesses ps).1 = some p then 1 else 0)
  | [] => by simp [classifyProcesses, classifyAux]
  | x :: rest => by
    unfold classifyProcesses
    unfold classifyAux
    by_cases h1 : (isGatewayProcess x && !isCliCommand x) = true
    · by_cases h2 : statusLive x = true
      · have hz := classifyAux_some_zombies_count x p hp rest
        have hf := classifyAux_some_fst x rest
        by_cases hxp : x = p
        · subst hxp
          simp [h1, h2, hz, hf, List.count_cons]
        · have hpx : ¬ (p = x) := fun he => hxp he.symm
          simp [h1, h2, hz, hf, List.count_cons, hxp, hpx]
      · have ih := classify_zombies_count p hp rest
        unfold classifyProcesses at ih
        simp only [h1, h2]
        simp [List.count_cons, ih]
        omega
    · by_cases h2 :
        (isCliCommand x && !(x.status == .running) && !(x.status == .starting)) = true
      · have ih := classify_zombies_count p hp rest
        unfold classifyProcesses at ih
        simp only [h1, h2]
        simp [List.count_cons, ih]
        omega
      · have hxp : ¬ (p = x) := by
          intro he
          rw [← he] at h1
          exact h1 hp
        have ih := classify_zombies_count p hp rest
        unfold classifyProcesses at ih
        simp [h1, h2, List.count_cons, ih, hxp]

theorem classify_fst_eq_find : ∀ ps : List Proc,
    (classifyProcesses ps).1 =
      ps.find? (fun q => (isGatewayProcess q && !isCliCommand q) && statusLive q)
  | [] => rfl
  | p :: rest => by
    have ih := classify_fst_eq_find rest
    unfold classifyProcesses at ih ⊢
    unfold classifyAux
    rw [List.find?_cons]
    by_cases h1 : (isGatewayProcess p && !isCliCommand p) = true
    · by_cases h2 : statusLive p = true
      · simp [h1, h2, classifyAux_some_fst]
      · simp [h1, h2, ih]
    · by_cases h2 :
        (isCliCommand p && !(p.status == .running) && !(p.status == .starting)) = true
      · simp [h1, h2, ih]
      · simp [h1, h2, ih]

theorem ensure_no_existing (cst : CacheState) (lastStart tL tD tN : Nat)
    (o : GatewayOracle)
    (hfind : (findExistingMoltbotProcess cst tL tD o.backendListing).gw = none) :
    ensureMoltbotGateway cst lastStart tL tD tN o =
      { result := (ensureStartSection lastStart tN o).1,
        cache := (findExistingMoltbotProcess cst tL tD o.backendListing).cache,
        lastStartAttemptAt := (ensureStartSection lastStart tN o).2.1,
        events :=
          (findExistingMoltbotProcess cst tL tD o.backendListing).zombies.map
            (fun z => GEvent.killProc z.id) ++ (ensureStartSection lastStart tN o).2.2 } := by
  unfold ensureMoltbotGateway
  dsimp only
  rw [hfind]

theorem ensureStartSection_throttled (lastStart tN : Nat) (o : GatewayOracle)
    (h : tN - lastStart < START_THROTTLE_MS) :
    ensureStartSection lastStart tN o = (.error throttledMsg, lastStart, []) := by
  simp [ensureStartSection, h]

theorem ensureStartSection_pass (lastStart tN : Nat) (o : GatewayOracle)
    (h : ¬ (tN - lastStart < START_THROTTLE_MS)) :
    ensureStartSection lastStart tN o =
      ((startAttempt o).1, tN, (startAttempt o).2) := by
  simp [ensureStartSection, h]

theorem startAttempt_success (o : GatewayOracle) (p : Proc) (lg : Logs)
    (hs : o.startResult = .ok p) (hw : o.newWaitOk = true) (hl : o.logsA = .ok lg) :
    startAttempt o =
      (.ok p,
        ((if !o.hasNewConfig && !o.hasLegacyConfig then [GEvent.restoreCall] else []) ++
          [GEvent.startProcess]) ++ [GEvent.getLogsCall p.id]) := by
  simp [startAttempt, hs, hw, hl]

theorem count_startProcess_kills (zs : List Proc) :
    ((zs.map (fun z => GEvent.killProc z.id)).count GEvent.startProcess) = 0 := by
  rw [List.count_eq_zero]
  simp

theorem startAttempt_waitFail (o : GatewayOracle) (p : Proc)
    (hs : o.startResult = .ok p) (hw : o.newWaitOk = false) :
    startAttempt o =
      startFailCleanup p o.newWaitErr o.logsA
        ((if !o.hasNewConfig && !o.hasLegacyConfig then [GEvent.restoreCall] else []) ++
          [GEvent.startProcess]) := by
  simp [startAttempt, hs, hw]

theorem startFailCleanup_events (p : Proc) (w : Chars) (ln : Except Chars Logs)
    (evs : List GEvent) :
    (startFailCleanup p w ln evs).2 =
      evs ++ [GEvent.killProc p.id, GEvent.getLogsCall p.id] := by
  cases ln with
  | ok lg => simp [startFailCleanup]
  | error le =>
    by_cases hp : startupFailMsgPfx.isPrefixOf le = true <;> simp [startFailCleanup, hp]

theorem countP_replicate {α : Type} (p : α → Bool) (a : α) :
    ∀ n, (List.replicate n a).countP p = if p a then n else 0
  | 0 => by simp
  | n + 1 => by
    rw [List.replicate_succ, List.countP_cons, countP_replicate p a n]
    by_cases hp : p a = true <;> simp [hp]

theorem machineInv_init (T n : Nat) : MachineInv T (initMachine n) := by
  unfold MachineInv initMachine attemptCount startCount phaseCount
  refine ⟨?_, ?_, ?_, ?_, ?_⟩
  · simp [countP_replicate]
  · simp [countP_replicate]
  · left
    simp [attemptCount]
  · intro j hj
    simp at hj
  · intro j ph hj h1 h2
    exfalso
    have hm : ph ∈ List.replicate n CallerPhase.entry := List.get?_mem hj
    exact h1 (List.eq_of_mem_replicate hm)

theorem filterMap_attempt_append_attempt (evs : List MEvent) (t c : Nat) :
    (List.filterMap (fun e => match e with
        | MEvent.attempt t2 c2 => some (t2, c2)
        | _ => none) (evs ++ [MEvent.attempt t c])).length =
      (List.filterMap (fun e => match e with
        | MEvent.attempt t2 c2 => some (t2, c2)
        | _ => none) evs).length + 1 := by
  rw [List.filterMap_append, List.length_append]
  rfl

theorem filterMap_attempt_append_start (evs : List MEvent) (t c : Nat) :
    (List.filterMap (fun e => match e with
        | MEvent.attempt t2 c2 => some (t2, c2)
        | _ => none) (evs ++ [MEvent.start t c])).length =
      (List.filterMap (fun e => match e with
        | MEvent.attempt t2 c2 => some (t2, c2)
        | _ => none) evs).length := by
  rw [List.filterMap_append, List.length_append]
  rfl

theorem filterMap_start_append_attempt (evs : List MEvent) (t c : Nat) :
    (List.filterMap (fun e => match e with
        | MEvent.start t2 c2 => some (t2, c2)
        | _ => none) (evs ++ [MEvent.attempt t c])).length =
      (List.filterMap (fun e => match e with
        | MEvent.start t2 c2 => some (t2, c2)
        | _ => none) evs).length := by
  rw [List.filterMap_append, List.length_append]
  rfl

theorem filterMap_start_append_start (evs : List MEvent) (t c : Nat) :
    (List.filterMap (fun e => match e with
        | MEvent.start t2 c2 => some (t2, c2)
        | _ => none) (evs ++ [MEvent.start t c])).length =
      (List.filterMap (fun e => match e with
        | MEvent.start t2 c2 => some (t2, c2)
        | _ => none) evs).length + 1 := by
  rw [List.filterMap_append, List.length_append]
  rfl

theorem get?_set_self2 {α : Type} (l : List α) (i : Nat) (v : α) (h : i < l.length) :
    (l.set i v).get? i = some v := by
  simp [List.getElem?_set_self, h]

theorem get?_set_ne2 {α : Type} (l : List α) (i j : Nat) (v : α) (h : i ≠ j) :
    (l.set i v).get? j = l.get? j := by
  simp [List.getElem?_set_ne h]

theorem phaseCount_set_eq (phs : List CallerPhase) (i : Nat) (ph1 ph2 p : CallerPhase)
    (hgi : phs.get? i = some ph1) :
    (phs.set i ph2).countP (fun q => q == p) + (if ph1 = p then 1 else 0) =
      phs.countP (fun q => q == p) + (if ph2 = p then 1 else 0) := by
  have h := countP_set_eq (fun q => q == p) ph2 ph1 phs i hgi
  simpa using h

theorem machineInv_step (T : Nat) (hT : START_THROTTLE_MS ≤ T) (m : Machine)
    (i t : Nat) (htw : T ≤ t ∧ t < T + START_THROTTLE_MS)
    (hm : MachineInv T m) : MachineInv T (stepCaller m i t) := by
  obtain ⟨i1, i2, i3, i4, i5⟩ := hm
  cases hgi : m.phases.get? i with
  | none =>
    have hstep : stepCaller m i t = m := by
      unfold stepCaller
      rw [hgi]
    rw [hstep]
    exact ⟨i1, i2, i3, i4, i5⟩
  | some ph =>
    have hilen : i < m.phases.length := List.get?_eq_some.mp hgi |>.1
    cases ph with
    | entry =>
      cases hslot : m.slot with
      | some j =>
        have hstep : stepCaller m i t =
            { m with phases := m.phases.set i (CallerPhase.joined j) } := by
          unfold stepCaller
          rw [hgi, hslot]
        rw [hstep]
        have cin := phaseCount_set_eq m.phases i CallerPhase.entry
          (CallerPhase.joined j) CallerPhase.inAttempt hgi
        have cport := phaseCount_set_eq m.phases i CallerPhase.entry
          (CallerPhase.joined j) CallerPhase.awaitingPort hgi
        have cfin := phaseCount_set_eq m.phases i CallerPhase.entry
          (CallerPhase.joined j) CallerPhase.finished hgi
        rw [if_neg (by simp), if_neg (by simp)] at cin cport cfin
        have hij : i ≠ j := by
          intro he
          rcases i4 j hslot with h4 | h4 <;> rw [← he, hgi] at h4 <;> cases h4
        have hatt : 1 ≤ attemptCount m := by
          rcases i4 j hslot with h4 | h4
          · have hc := countP_pos_of_get? (fun q => q == CallerPhase.inAttempt)
              m.phases j _ h4 (by simp)
            rw [i1]
            unfold phaseCount
            omega
          · have hc := countP_pos_of_get? (fun q => q == CallerPhase.awaitingPort)
              m.phases j _ h4 (by simp)
            rw [i1]
            unfold phaseCount
            omega
        refine ⟨?_, ?_, i3, ?_, ?_⟩
        · unfold attemptCount phaseCount at i1 ⊢
          dsimp only at i1 ⊢
          omega
        · unfold startCount phaseCount at i2 ⊢
          dsimp only at i2 ⊢
          omega
        · intro j2 hj2
          dsimp only at hj2
          rw [hslot] at hj2
          have hjj : j = j2 := Option.some.inj hj2
          subst hjj
          dsimp only
          rcases i4 j hslot with h4 | h4
          · left
            rw [get?_set_ne2 _ _ _ _ hij]
            exact h4
          · right
            rw [get?_set_ne2 _ _ _ _ hij]
            exact h4
        · intro j2 ph2 hj2 hne1 hne2
          unfold attemptCount
          dsimp only
          exact hatt
      | none =>
        have hstep : stepCaller m i t =
            { m with phases := m.phases.set i CallerPhase.awaitingFind } := by
          unfold stepCaller
          rw [hgi, hslot]
        rw [hstep]
        have cin := phaseCount_set_eq m.phases i CallerPhase.entry
          CallerPhase.awaitingFind CallerPhase.inAttempt hgi
        have cport := phaseCount_set_eq m.phases i CallerPhase.entry
          CallerPhase.awaitingFind CallerPhase.awaitingPort hgi
        have cfin := phaseCount_set_eq m.phases i CallerPhase.entry
          CallerPhase.awaitingFind CallerPhase.finished hgi
        rw [if_neg (by simp), if_neg (by simp)] at cin cport cfin
        refine ⟨?_, ?_, i3, ?_, ?_⟩
        · unfold attemptCount phaseCount at i1 ⊢
          dsimp only at i1 ⊢
          omega
        · unfold startCount phaseCount at i2 ⊢
          dsimp only at i2 ⊢
          omega
        · intro j2 hj2
          dsimp only at hj2
          rw [hslot] at hj2
          cases hj2
        · intro j2 ph2 hj2 hne1 hne2
          dsimp only at hj2
          by_cases hij : i = j2
          · rw [← hij, get?_set_self2 _ _ _ hilen] at hj2
            exact absurd (Option.some.inj hj2).symm hne2
          · rw [get?_set_ne2 _ _ _ _ hij] at hj2
            exact i5 j2 ph2 hj2 hne1 hne2
    | awaitingFind =>
      by_cases hth : t - m.lastStartAttemptAt < START_THROTTLE_MS
      · have hstep : stepCaller m i t =
            { m with phases := m.phases.set i CallerPhase.gotThrottled } := by
          unfold stepCaller
          rw [hgi, if_pos hth]
        rw [hstep]
        have cin := phaseCount_set_eq m.phases i CallerPhase.awaitingFind
          CallerPhase.gotThrottled CallerPhase.inAttempt hgi
        have cport := phaseCount_set_eq m.phases i CallerPhase.awaitingFind
          CallerPhase.gotThrottled CallerPhase.awaitingPort hgi
        have cfin := phaseCount_set_eq m.phases i CallerPhase.awaitingFind
          CallerPhase.gotThrottled CallerPhase.finished hgi
        rw [if_neg (by simp), if_neg (by simp)] at cin cport cfin
        have hatt : 1 ≤ attemptCount m := by
          rcases i3 with ⟨hz, _⟩ | ⟨_, _, hone⟩
          · exfalso
            rw [hz] at hth
            unfold START_THROTTLE_MS at hth hT
            omega
          · omega
        refine ⟨?_, ?_, i3, ?_, ?_⟩
        · unfold attemptCount phaseCount at i1 ⊢
          dsimp only at i1 ⊢
          omega
        · unfold startCount phaseCount at i2 ⊢
          dsimp only at i2 ⊢
          omega
        · intro j2 hj2
          dsimp only at hj2
          have hij : i ≠ j2 := by
            intro he
            rcases i4 j2 hj2 with h4 | h4 <;> rw [← he, hgi] at h4 <;> cases h4
          dsimp only
          rcases i4 j2 hj2 with h4 | h4
          · left
            rw [get?_set_ne2 _ _ _ _ hij]
            exact h4
          · right
            rw [get?_set_ne2 _ _ _ _ hij]
            exact h4
        · intro j2 ph2 hj2 hne1 hne2
          unfold attemptCount
          dsimp only
          exact hatt
      · have hstep : stepCaller m i t =
            { m with lastStartAttemptAt := t, slot := some i,
                     phases := m.phases.set i CallerPhase.inAttempt,
                     events := m.events ++ [MEvent.attempt t i] } := by
          unfold stepCaller
          rw [hgi, if_neg hth]
        rw [hstep]
        have cin := phaseCount_set_eq m.phases i CallerPhase.awaitingFind
          CallerPhase.inAttempt CallerPhase.inAttempt hgi
        have cport := phaseCount_set_eq m.phases i CallerPhase.awaitingFind
          CallerPhase.inAttempt CallerPhase.awaitingPort hgi
        have cfin := phaseCount_set_eq m.phases i CallerPhase.awaitingFind
          CallerPhase.inAttempt CallerPhase.finished hgi
        rw [if_neg (by simp), if_pos rfl] at cin
        rw [if_neg (by simp), if_neg (by simp)] at cport cfin
        refine ⟨?_, ?_, ?_, ?_, ?_⟩
        · unfold attemptCount phaseCount at i1 ⊢
          dsimp only at i1 ⊢
          rw [filterMap_attempt_append_attempt]
          omega
        · unfold startCount phaseCount at i2 ⊢
          dsimp only at i2 ⊢
          rw [filterMap_start_append_attempt]
          omega
        · right
          have hattS : attemptCount
              { m with lastStartAttemptAt := t, slot := some i,
                       phases := m.phases.set i CallerPhase.inAttempt,
                       events := m.events ++ [MEvent.attempt t i] } =
              attemptCount m + 1 := by
            unfold attemptCount
            dsimp only
            rw [filterMap_attempt_append_attempt]
          rw [hattS]
          dsimp only
          rcases i3 with ⟨_, hz⟩ | ⟨hge, hlt, _⟩
          · exact ⟨htw.1, htw.2, by omega⟩
          · exfalso
            omega
        · intro j2 hj2
          dsimp only at hj2
          have hjj : i = j2 := Option.some.inj hj2
          subst hjj
          left
          dsimp only
          rw [get?_set_self2 _ _ _ hilen]
        · intro j2 ph2 hj2 hne1 hne2
          unfold attemptCount
          dsimp only
          rw [filterMap_attempt_append_attempt]
          omega
    | inAttempt =>
      have hstep : stepCaller m i t =
          { m with phases := m.phases.set i CallerPhase.awaitingPort,
                   events := m.events ++ [MEvent.start t i] } := by
        unfold stepCaller
        rw [hgi]
      rw [hstep]
      have cin := phaseCount_set_eq m.phases i CallerPhase.inAttempt
        CallerPhase.awaitingPort CallerPhase.inAttempt hgi
      have cport := phaseCount_set_eq m.phases i CallerPhase.inAttempt
        CallerPhase.awaitingPort CallerPhase.awaitingPort hgi
      have cfin := phaseCount_set_eq m.phases i CallerPhase.inAttempt
        CallerPhase.awaitingPort CallerPhase.finished hgi
      rw [if_pos rfl, if_neg (by simp)] at cin
      rw [if_neg (by simp), if_pos rfl] at cport
      rw [if_neg (by simp), if_neg (by simp)] at cfin
      have hattpos : 1 ≤ attemptCount m := i5 i CallerPhase.inAttempt hgi
        (by intro h; cases h) (by intro h; cases h)
      refine ⟨?_, ?_, ?_, ?_, ?_⟩
      · unfold attemptCount phaseCount at i1 ⊢
        dsimp only at i1 ⊢
        rw [filterMap_attempt_append_start]
        omega
      · unfold startCount phaseCount at i2 ⊢
        dsimp only at i2 ⊢
        rw [filterMap_start_append_start]
        omega
      · have hattS : attemptCount
            { m with phases := m.phases.set i CallerPhase.awaitingPort,
                     events := m.events ++ [MEvent.start t i] } = attemptCount m := by
          unfold attemptCount
          dsimp only
          rw [filterMap_attempt_append_start]
        rw [hattS]
        dsimp only
        exact i3
      · intro j2 hj2
        dsimp only at hj2
        rcases i4 j2 hj2 with h4 | h4
        · by_cases hij : i = j2
          · right
            rw [← hij]
            dsimp only
            rw [get?_set_self2 _ _ _ hilen]
          · left
            dsimp only
            rw [get?_set_ne2 _ _ _ _ hij]
            exact h4
        · by_cases hij : i = j2
          · right
            rw [← hij]
            dsimp only
            rw [get?_set_self2 _ _ _ hilen]
          · right
            dsimp only
            rw [get?_set_ne2 _ _ _ _ hij]
            exact h4
      · intro j2 ph2 hj2 hne1 hne2
        unfold attemptCount
        dsimp only
        rw [filterMap_attempt_append_start]
        exact hattpos
    | awaitingPort =>
      have hstep : stepCaller m i t =
          { m with phases := m.phases.set i CallerPhase.finished, slot := none } := by
        unfold stepCaller
        rw [hgi]
      rw [hstep]
      have cin := phaseCount_set_eq m.phases i CallerPhase.awaitingPort
        CallerPhase.finished CallerPhase.inAttempt hgi
      have cport := phaseCount_set_eq m.phases i CallerPhase.awaitingPort
        CallerPhase.finished CallerPhase.awaitingPort hgi
      have cfin := phaseCount_set_eq m.phases i CallerPhase.awaitingPort
        CallerPhase.finished CallerPhase.finished hgi
      rw [if_neg (by decide), if_neg (by decide)] at cin
      rw [if_pos rfl, if_neg (by simp)] at cport
      rw [if_neg (by simp), if_pos rfl] at cfin
      have hattpos : 1 ≤ attemptCount m := i5 i CallerPhase.awaitingPort hgi
        (by intro h; cases h) (by intro h; cases h)
      refine ⟨?_, ?_, i3, ?_, ?_⟩
      · unfold attemptCount phaseCount at i1 ⊢
        dsimp only at i1 ⊢
        omega
      · unfold startCount phaseCount at i2 ⊢
        dsimp only at i2 ⊢
        omega
      · intro j2 hj2
        dsimp only at hj2
        cases hj2
      · intro j2 ph2 hj2 hne1 hne2
        unfold attemptCount
        dsimp only
        exact hattpos
    | joined j =>
      have hstep : stepCaller m i t = m := by
        unfold stepCaller
        rw [hgi]
      rw [hstep]
      exact ⟨i1, i2, i3, i4, i5⟩
    | gotThrottled =>
      have hstep : stepCaller m i t = m := by
        unfold stepCaller
        rw [hgi]
      rw [hstep]
      exact ⟨i1, i2, i3, i4, i5⟩
    | finished =>
      have hstep : stepCaller m i t = m := by
        unfold stepCaller
        rw [hgi]
      rw [hstep]
      exact ⟨i1, i2, i3, i4, i5⟩

theorem machineInv_run (T n : Nat) (hT : START_THROTTLE_MS ≤ T) :
    ∀ sched : List (Nat × Nat),
      (∀ s ∈ sched, T ≤ s.2 ∧ s.2 < T + START_THROTTLE_MS) →
      MachineInv T (runMachine n sched) := by
  have hgen : ∀ (sched : List (Nat × Nat)) (m : Machine), MachineInv T m →
      (∀ s ∈ sched, T ≤ s.2 ∧ s.2 < T + START_THROTTLE_MS) →
      MachineInv T (sched.foldl (fun m s => stepCaller m s.1 s.2) m) := by
    intro sched
    induction sched with
    | nil => intro m hm _; exact hm
    | cons s rest ih =>
      intro m hm hw
      rw [List.foldl_cons]
      exact ih (stepCaller m s.1 s.2)
        (machineInv_step T hT m s.1 s.2 (hw s (List.mem_cons_self s rest)) hm)
        (fun s2 hs2 => hw s2 (List.mem_cons_of_mem s hs2))
  intro sched hw
  exact hgen sched (initMachine n) (machineInv_init T n) hw

/-! ## Claim theorems -/

/-- C4: the classifier selects as canonical the first gateway-pattern
entry whose status is starting or running (`find?` over the listing), and
queues every other gateway-pattern entry for termination (counting
multiplicity, a gateway-pattern entry is either the canonical one or in
the zombie list); in particular, for a listing with one running and one
dead gateway entry, the running one is canonical and exactly one `kill()`
is issued, for the dead one. -/
theorem classifier_canonical_and_reaping (ps : List Proc) (p : Proc) :
    ((classifyProcesses ps).1 =
      ps.find? (fun q => (isGatewayProcess q && !isCliCommand q) && statusLive q)) ∧
    ((isGatewayProcess p && !isCliCommand p) = true →
      ps.count p = (classifyProcesses ps).2.count p +
        (if (classifyProcesses ps).1 = some p then 1 else 0)) ∧
    (classifyProcesses
        [ { id := "p1".data, command := "/usr/local/bin/start-openclaw.sh".data,
            status := .running },
          { id := "p2".data, command := "openclaw gateway run".data, status := .dead } ] =
      (some { id := "p1".data, command := "/usr/local/bin/start-openclaw.sh".data,
              status := .running },
        [ { id := "p2".data, command := "openclaw gateway run".data,
            status := .dead } ])) :=
  ⟨classify_fst_eq_find ps, fun hp => classify_zombies_count p hp ps, by decide⟩

/-- Witness for C4 on the running/dead two-entry listing. -/
theorem classifier_canonical_and_reaping_witness :
    ([ { id := "p1".data, command := "/usr/local/bin/start-openclaw.sh".data,
         status := PStatus.running },
       { id := "p2".data, command := "openclaw gateway run".data,
         status := PStatus.dead } ] : List Proc).count
        { id := "p2".data, command := "openclaw gateway run".data, status := .dead } =
      (classifyProcesses
        [ { id := "p1".data, command := "/usr/local/bin/start-openclaw.sh".data,
            status := .running },
          { id := "p2".data, command := "openclaw gateway run".data,
            status := .dead } ]).2.count
        { id := "p2".data, command := "openclaw gateway run".data, status := .dead } +
        (if (classifyProcesses
          [ { id := "p1".data, command := "/usr/local/bin/start-openclaw.sh".data,
              status := .running },
            { id := "p2".data, command := "openclaw gateway run".data,
              status := .dead } ]).1 =
            some { id := "p2".data, command := "openclaw gateway run".data,
                   status := .dead } then 1 else 0) :=
  (classifier_canonical_and_reaping
    [ { id := "p1".data, command := "/usr/local/bin/start-openclaw.sh".data,
        status := .running },
      { id := "p2".data, command := "openclaw gateway run".data, status := .dead } ]
    { id := "p2".data, command := "openclaw gateway run".data,
      status := .dead }).2.1 (by decide)

/-- C6: the workspace sync step (present in the step list for every
config directory) uploads only `a.json` out of the example listing: files
ending in an excluded extension, files matching the backup-suffix
pattern, files with an excluded directory segment, and files under the
step's excluded `skills` subdirectory are all skipped. -/
theorem workspace_step_uploads_only_clean_files :
    (∀ configDir,
      ({ name := "workspace".data, sourcePath := "/root/clawd".data,
         r2Pfx := "workspace/".data, excludeDirs := ["skills".data] } : SyncStep) ∈
        syncSteps configDir) ∧
    (stepUploads
        [ { absolutePath := "/root/clawd/a.json".data, isFile := true, readOk := true,
            data := .text "A".data },
          { absolutePath := "/root/clawd/b.lock".data, isFile := true, readOk := true,
            data := .text "B".data },
          { absolutePath := "/root/clawd/c.log".data, isFile := true, readOk := true,
            data := .text "C".data },
          { absolutePath := "/root/clawd/d.bak-20240101".data, isFile := true,
            readOk := true, data := .text "D".data },
          { absolutePath := "/root/clawd/skills/x.md".data, isFile := true,
            readOk := true, data := .text "X".data } ]
        { name := "workspace".data, sourcePath := "/root/clawd".data,
          r2Pfx := "workspace/".data, excludeDirs := ["skills".data] } =
      [("workspace/a.json".data, .text "A".data)]) ∧
    (∀ p ext, ext ∈ EXCLUDED_EXTENSIONS → ext.isSuffixOf p = true →
      shouldExclude p = true) ∧
    (∀ p, (".bak-".data <:+: p) → shouldExclude p = true) ∧
    (∀ p seg, seg ∈ EXCLUDED_DIRS → seg ∈ splitSeg p → shouldExclude p = true) ∧
    (∀ (step : SyncStep) (f : FileEntry), step.excludeDirs.any
        (fun d => (d ++ "/".data).isPrefixOf (stepRel step f.absolutePath)) = true →
      stepUploadOf step f = none) := by
  refine ⟨?_, ?_, ?_, ?_, ?_, ?_⟩
  · intro configDir
    simp [syncSteps]
  · decide
  · intro p ext hm hs
    unfold shouldExclude
    rw [Bool.or_eq_true, Bool.or_eq_true, List.any_eq_true]
    exact Or.inl (Or.inl ⟨ext, hm, hs⟩)
  · intro p h
    simp [shouldExclude, h]
  · intro p seg hm hsp
    unfold shouldExclude
    rw [Bool.or_eq_true, List.any_eq_true]
    refine Or.inr ⟨seg, hsp, ?_⟩
    simpa using hm
  · intro step f h
    simp [stepUploadOf, h]

/-- Witness for C6: each skip rule fired on a concrete input via the
theorem. -/
theorem workspace_step_uploads_only_clean_files_witness :
    shouldExclude "/root/clawd/b.lock".data = true ∧
    shouldExclude "/root/clawd/d.bak-20240101".data = true ∧
    shouldExclude "a/node_modules/b.js".data = true ∧
    stepUploadOf
      { name := "workspace".data, sourcePath := "/root/clawd".data,
        r2Pfx := "workspace/".data, excludeDirs := ["skills".data] }
      { absolutePath := "/root/clawd/skills/x.md".data, isFile := true,
        readOk := true, data := .text "X".data } = none := by
  refine ⟨?_, ?_, ?_, ?_⟩
  · exact workspace_step_uploads_only_clean_files.2.2.1
      ("/root/clawd/b.lock".data) (".lock".data) (by decide) (by decide)
  · exact workspace_step_uploads_only_clean_files.2.2.2.1
      ("/root/clawd/d.bak-20240101".data) (by decide)
  · exact workspace_step_uploads_only_clean_files.2.2.2.2.1
      ("a/node_modules/b.js".data) ("node_modules".data) (by decide) (by decide)
  · exact workspace_step_uploads_only_clean_files.2.2.2.2.2 _ _ (by decide)

/-- C8: for two sequential `ensureReady` calls inside the throttle window
that both find no existing process, the first yields one successful start
attempt (exactly one `startProcess` call, returning the live process) and
records the attempt time; the second fails fast with the throttling error,
issues no `startProcess`, and leaves the throttle timestamp unchanged. -/
theorem sequential_start_then_throttled
    (cst : CacheState) (lastStart0 tL1 tD1 t1 tL2 tD2 t2 : Nat)
    (o1 o2 : GatewayOracle) (p : Proc) (lg : Logs)
    (h1find : (findExistingMoltbotProcess cst tL1 tD1 o1.backendListing).gw = none)
    (h1th : START_THROTTLE_MS ≤ t1 - lastStart0)
    (h1start : o1.startResult = .ok p)
    (h1wait : o1.newWaitOk = true)
    (h1logs : o1.logsA = .ok lg)
    (h2find : (findExistingMoltbotProcess
        (ensureMoltbotGateway cst lastStart0 tL1 tD1 t1 o1).cache
        tL2 tD2 o2.backendListing).gw = none)
    (h2th : t2 - t1 < START_THROTTLE_MS) :
    (ensureMoltbotGateway cst lastStart0 tL1 tD1 t1 o1).result = .ok p ∧
    (ensureMoltbotGateway cst lastStart0 tL1 tD1 t1 o1).lastStartAttemptAt = t1 ∧
    (ensureMoltbotGateway cst lastStart0 tL1 tD1 t1 o1).events.count
      GEvent.startProcess = 1 ∧
    (ensureMoltbotGateway (ensureMoltbotGateway cst lastStart0 tL1 tD1 t1 o1).cache
      (ensureMoltbotGateway cst lastStart0 tL1 tD1 t1 o1).lastStartAttemptAt
      tL2 tD2 t2 o2).result = .error throttledMsg ∧
    (ensureMoltbotGateway (ensureMoltbotGateway cst lastStart0 tL1 tD1 t1 o1).cache
      (ensureMoltbotGateway cst lastStart0 tL1 tD1 t1 o1).lastStartAttemptAt
      tL2 tD2 t2 o2).events.count GEvent.startProcess = 0 ∧
    (ensureMoltbotGateway (ensureMoltbotGateway cst lastStart0 tL1 tD1 t1 o1).cache
      (ensureMoltbotGateway cst lastStart0 tL1 tD1 t1 o1).lastStartAttemptAt
      tL2 tD2 t2 o2).lastStartAttemptAt = t1 := by
  have hth1 : ¬ (t1 - lastStart0 < START_THROTTLE_MS) := by omega
  have e1 := ensure_no_existing cst lastStart0 tL1 tD1 t1 o1 h1find
  rw [ensureStartSection_pass _ _ _ hth1,
    startAttempt_success o1 p lg h1start h1wait h1logs] at e1
  have hres1 : (ensureMoltbotGateway cst lastStart0 tL1 tD1 t1 o1).result = .ok p := by
    rw [e1]
  have hlsa1 :
      (ensureMoltbotGateway cst lastStart0 tL1 tD1 t1 o1).lastStartAttemptAt = t1 := by
    rw [e1]
  have hcnt1 : (ensureMoltbotGateway cst lastStart0 tL1 tD1 t1 o1).events.count
      GEvent.startProcess = 1 := by
    rw [e1]
    by_cases hb : (!o1.hasNewConfig && !o1.hasLegacyConfig) = true <;>
      simp [hb, List.count_append, count_startProcess_kills, List.count_cons]
  have e2 := ensure_no_existing
    (ensureMoltbotGateway cst lastStart0 tL1 tD1 t1 o1).cache
    (ensureMoltbotGateway cst lastStart0 tL1 tD1 t1 o1).lastStartAttemptAt
    tL2 tD2 t2 o2 h2find
  rw [hlsa1, ensureStartSection_throttled _ _ _ h2th] at e2
  rw [hlsa1]
  refine ⟨hres1, rfl, hcnt1, ?_, ?_, ?_⟩
  · rw [e2]
  · rw [e2]
    simp [List.count_append, count_startProcess_kills]
  · rw [e2]

/-- Witness for C8 at concrete states, times and oracles. -/
theorem sequential_start_then_throttled_witness :
    (ensureMoltbotGateway initialCacheState 0 0 0 20000
      { backendListing := .ok [], existingWaitOk := true, hasNewConfig := true,
        hasLegacyConfig := false,
        startResult := .ok { id := "g".data, command := [], status := .starting },
        newWaitOk := true, newWaitErr := [], logsA := .ok { stdout := [], stderr := [] },
        logsB := .ok { stdout := [], stderr := [] } }).result =
      .ok { id := "g".data, command := [], status := .starting } ∧
    (ensureMoltbotGateway initialCacheState 0 0 0 20000
      { backendListing := .ok [], existingWaitOk := true, hasNewConfig := true,
        hasLegacyConfig := false,
        startResult := .ok { id := "g".data, command := [], status := .starting },
        newWaitOk := true, newWaitErr := [], logsA := .ok { stdout := [], stderr := [] },
        logsB := .ok { stdout := [], stderr := [] } }).events.count
        GEvent.startProcess = 1 ∧
    (ensureMoltbotGateway
      (ensureMoltbotGateway initialCacheState 0 0 0 20000
        { backendListing := .ok [], existingWaitOk := true, hasNewConfig := true,
          hasLegacyConfig := false,
          startResult := .ok { id := "g".data, command := [], status := .starting },
          newWaitOk := true, newWaitErr := [], logsA := .ok { stdout := [], stderr := [] },
          logsB := .ok { stdout := [], stderr := [] } }).cache
      (ensureMoltbotGateway initialCacheState 0 0 0 20000
        { backendListing := .ok [], existingWaitOk := true, hasNewConfig := true,
          hasLegacyConfig := false,
          startResult := .ok { id := "g".data, command := [], status := .starting },
          newWaitOk := true, newWaitErr := [], logsA := .ok { stdout := [], stderr := [] },
          logsB := .ok { stdout := [], stderr := [] } }).lastStartAttemptAt
      25000 25000 25000
      { backendListing := .ok [], existingWaitOk := true, hasNewConfig := true,
        hasLegacyConfig := false,
        startResult := .ok { id := "g".data, command := [], status := .starting },
        newWaitOk := true, newWaitErr := [], logsA := .ok { stdout := [], stderr := [] },
        logsB := .ok { stdout := [], stderr := [] } }).result = .error throttledMsg := by
  have h := sequential_start_then_throttled initialCacheState 0 0 0 20000 25000 25000 25000
    { backendListing := .ok [], existingWaitOk := true, hasNewConfig := true,
      hasLegacyConfig := false,
      startResult := .ok { id := "g".data, command := [], status := .starting },
      newWaitOk := true, newWaitErr := [], logsA := .ok { stdout := [], stderr := [] },
      logsB := .ok { stdout := [], stderr := [] } }
    { backendListing := .ok [], existingWaitOk := true, hasNewConfig := true,
      hasLegacyConfig := false,
      startResult := .ok { id := "g".data, command := [], status := .starting },
      newWaitOk := true, newWaitErr := [], logsA := .ok { stdout := [], stderr := [] },
      logsB := .ok { stdout := [], stderr := [] } }
    { id := "g".data, command := [], status := .starting }
    { stdout := [], stderr := [] }
    (by decide) (by decide) rfl rfl rfl (by decide) (by decide)
  exact ⟨h.1, h.2.2.1, h.2.2.2.1⟩

/-- C9 (amended): for a freshly started process whose port wait fails,
`ensureReady` kills the process (best effort) and attempts to fetch its
logs; when log retrieval succeeds it raises the descriptive error
embedding the stderr excerpt; when log retrieval itself fails with an
error not bearing the startup-failure message prefix, it raises the
original wait error; a log-retrieval error that does bear that prefix is
re-raised as is. -/
theorem failed_port_wait_cleanup
    (cst : CacheState) (lastStart tL tD tN : Nat) (o : GatewayOracle) (p : Proc)
    (hfind : (findExistingMoltbotProcess cst tL tD o.backendListing).gw = none)
    (hth : START_THROTTLE_MS ≤ tN - lastStart)
    (hs : o.startResult = .ok p)
    (hw : o.newWaitOk = false) :
    GEvent.killProc p.id ∈ (ensureMoltbotGateway cst lastStart tL tD tN o).events ∧
    GEvent.getLogsCall p.id ∈ (ensureMoltbotGateway cst lastStart tL tD tN o).events ∧
    (∀ lg, o.logsA = .ok lg →
      (ensureMoltbotGateway cst lastStart tL tD tN o).result =
        .error (startupErrMsg lg.stderr)) ∧
    (∀ le, o.logsA = .error le → startupFailMsgPfx.isPrefixOf le = false →
      (ensureMoltbotGateway cst lastStart tL tD tN o).result = .error o.newWaitErr) ∧
    (∀ le, o.logsA = .error le → startupFailMsgPfx.isPrefixOf le = true →
      (ensureMoltbotGateway cst lastStart tL tD tN o).result = .error le) := by
  have hth1 : ¬ (tN - lastStart < START_THROTTLE_MS) := by omega
  have e1 := ensure_no_existing cst lastStart tL tD tN o hfind
  rw [ensureStartSection_pass _ _ _ hth1, startAttempt_waitFail o p hs hw] at e1
  refine ⟨?_, ?_, ?_, ?_, ?_⟩
  · rw [e1]
    simp [startFailCleanup_events]
  · rw [e1]
    simp [startFailCleanup_events]
  · intro lg hl
    rw [e1, hl]
    simp [startFailCleanup]
  · intro le hl hp
    rw [e1, hl]
    simp [startFailCleanup, hp]
  · intro le hl hp
    rw [e1, hl]
    simp [startFailCleanup, hp]

/-- Witness for C9 at a concrete run whose port wait fails and whose log
fetch succeeds with a nonempty stderr. -/
theorem failed_port_wait_cleanup_witness :
    GEvent.killProc "g".data ∈
      (ensureMoltbotGateway initialCacheState 0 0 0 20000
        { backendListing := .ok [], existingWaitOk := true, hasNewConfig := true,
          hasLegacyConfig := false,
          startResult := .ok { id := "g".data, command := [], status := .starting },
          newWaitOk := false, newWaitErr := "wait timed out".data,
          logsA := .ok { stdout := [], stderr := "bad config".data },
          logsB := .ok { stdout := [], stderr := [] } }).events ∧
    (ensureMoltbotGateway initialCacheState 0 0 0 20000
      { backendListing := .ok [], existingWaitOk := true, hasNewConfig := true,
        hasLegacyConfig := false,
        startResult := .ok { id := "g".data, command := [], status := .starting },
        newWaitOk := false, newWaitErr := "wait timed out".data,
        logsA := .ok { stdout := [], stderr := "bad config".data },
        logsB := .ok { stdout := [], stderr := [] } }).result =
      .error (startupErrMsg "bad config".data) := by
  have h := failed_port_wait_cleanup initialCacheState 0 0 0 20000
    { backendListing := .ok [], existingWaitOk := true, hasNewConfig := true,
      hasLegacyConfig := false,
      startResult := .ok { id := "g".data, command := [], status := .starting },
      newWaitOk := false, newWaitErr := "wait timed out".data,
      logsA := .ok { stdout := [], stderr := "bad config".data },
      logsB := .ok { stdout := [], stderr := [] } }
    { id := "g".data, command := [], status := .starting }
    (by decide) (by decide) rfl rfl
  exact ⟨h.1, h.2.2.1 { stdout := [], stderr := "bad config".data } rfl⟩

/-- Counterexample for C9 as stated: when log retrieval fails with an
error whose message happens to start with the startup-failure prefix, the
code re-raises that log error rather than the original wait error. -/
theorem failed_port_wait_cleanup_counterexample :
    (ensureMoltbotGateway initialCacheState 0 0 0 20000
      { backendListing := .ok [], existingWaitOk := true, hasNewConfig := true,
        hasLegacyConfig := false,
        startResult := .ok { id := "g".data, command := [], status := .starting },
        newWaitOk := false, newWaitErr := "waitForPort timed out".data,
        logsA := .error "OpenClaw gateway failed logs RPC".data,
        logsB := .ok { stdout := [], stderr := [] } }).result =
      .error "OpenClaw gateway failed logs RPC".data ∧
    (ensureMoltbotGateway initialCacheState 0 0 0 20000
      { backendListing := .ok [], existingWaitOk := true, hasNewConfig := true,
        hasLegacyConfig := false,
        startResult := .ok { id := "g".data, command := [], status := .starting },
        newWaitOk := false, newWaitErr := "waitForPort timed out".data,
        logsA := .error "OpenClaw gateway failed logs RPC".data,
        logsB := .ok { stdout := [], stderr := [] } }).result ≠
      .error "waitForPort timed out".data := by
  constructor
  · decide
  · decide

/-- C7: during `restoreFromR2`, an object whose relative path matches the
per-agent session-transcript pattern with the transcript extension is
placed in the deferred key set and no `writeFile` for its target path is
issued by restore itself — so restore never blocks gateway readiness on
it; the file is written only by `restoreDeferredFiles` on the returned
keys. -/
theorem session_files_deferred
    (b : Bucket) (step : RestoreStep) (rel : Chars) (v mv : FileData)
    (hstep : step ∈ restoreSteps)
    (hrel : rel ≠ [])
    (hnx : shouldExclude rel = false)
    (hsess : isSessionFile ('/' :: rel) = true)
    (hmem : (step.r2Pfx ++ rel, v) ∈ b)
    (hnd : (b.map Prod.fst).Nodup)
    (hm : bucketGet b markerKey = some mv)
    (huniq : ∀ s2 ∈ restoreSteps, ∀ e ∈ b, s2.r2Pfx.isPrefixOf e.1 = true →
      s2.targetPath ++ "/".data ++ (e.1.drop s2.r2Pfx.length) =
        step.targetPath ++ "/".data ++ rel → e.1 = step.r2Pfx ++ rel) :
    (step.r2Pfx ++ rel) ∈ (restoreFromR2 true b).deferredKeys ∧
    lastWrite (restoreFromR2 true b).fsWrites
      (step.targetPath ++ "/".data ++ rel) = none ∧
    (step.targetPath ++ "/".data ++ rel, v.asText) ∈
      deferredWrites true b (restoreFromR2 true b).deferredKeys := by
  have hdrop : (step.r2Pfx ++ rel).drop step.r2Pfx.length = rel :=
    drop_length_append _ _
  have hpfx : step.r2Pfx.isPrefixOf (step.r2Pfx ++ rel) = true :=
    isPrefixOf_append_self _ _
  have hlen : 0 < ((step.r2Pfx ++ rel).drop step.r2Pfx.length).length := by
    rw [hdrop]
    exact List.length_pos.mpr hrel
  have hobj := restoreStepObjects_mem b step (step.r2Pfx ++ rel) v hmem hpfx hlen
  have hdef : (step.r2Pfx ++ rel) ∈ restoreStepDeferred b step := by
    apply restoreStepDeferred_mem b step (step.r2Pfx ++ rel) v hobj
    · rw [hdrop]; exact hnx
    · rw [hdrop]; exact hsess
  rw [restoreFromR2_marker b mv hm]
  have hdks : (step.r2Pfx ++ rel) ∈
      ((restoreSteps.map (restoreStepDeferred b)).flatten) :=
    List.mem_flatten.mpr
      ⟨restoreStepDeferred b step, List.mem_map_of_mem _ hstep, hdef⟩
  refine ⟨hdks, ?_, ?_⟩
  · apply lastWrite_eq_none
    intro e he hpath
    obtain ⟨l, hl, hel⟩ := List.mem_flatten.mp he
    obtain ⟨s2, hs2, rfl⟩ := List.mem_map.mp hl
    obtain ⟨k2, v2, hk2b, hpfx2, _, _, hsess2, v2f, _, hew⟩ :=
      restoreStepWrites_inv b s2 e hel
    have hk2 : k2 = step.r2Pfx ++ rel := by
      apply huniq s2 hs2 (k2, v2) hk2b hpfx2
      rw [← hpath, hew]
    have hs2eq : s2 = step := by
      apply restoreSteps_pfx_unique step s2 rel hstep hs2
      rw [← hk2]
      exact hpfx2
    rw [hs2eq, hk2, hdrop, hsess] at hsess2
    cases hsess2
  · have hne : ((restoreSteps.map (restoreStepDeferred b)).flatten).isEmpty = false := by
      cases hni : (restoreSteps.map (restoreStepDeferred b)).flatten with
      | nil => rw [hni] at hdks; cases hdks
      | cons x xs => rfl
    have hget : bucketGet b (step.r2Pfx ++ rel) = some v :=
      bucketGet_of_mem_nodup b _ v hmem hnd
    have hrelE : rel.isEmpty = false := by
      cases rel with
      | nil => exact absurd rfl hrel
      | cons c cs => rfl
    unfold deferredWrites
    rw [if_neg (by simp [hne])]
    apply List.mem_filterMap.mpr
    refine ⟨step.r2Pfx ++ rel, hdks, ?_⟩
    fin_cases hstep
    · have hget2 : bucketGet b ("openclaw/".data ++ rel) = some v := hget
      rw [show (pfxMap.find?
          (fun e => e.1.isPrefixOf ("openclaw/".data ++ rel))) =
          some ("openclaw/".data, "/root/.openclaw".data) from by
        simp [pfxMap, List.find?_cons, isPrefixOf_append_self]]
      dsimp only
      rw [drop_length_append, if_neg (by simp [hrelE]), hget2]
    · have hget2 : bucketGet b ("workspace/".data ++ rel) = some v := hget
      rw [show (pfxMap.find?
          (fun e => e.1.isPrefixOf ("workspace/".data ++ rel))) =
          some ("workspace/".data, "/root/clawd".data) from by
        simp [pfxMap, List.find?_cons, isPrefixOf_append_self, not_pfx_o_w]]
      dsimp only
      rw [drop_length_append, if_neg (by simp [hrelE]), hget2]
    · have hget2 : bucketGet b ("skills/".data ++ rel) = some v := hget
      rw [show (pfxMap.find?
          (fun e => e.1.isPrefixOf ("skills/".data ++ rel))) =
          some ("skills/".data, "/root/clawd/skills".data) from by
        simp [pfxMap, List.find?_cons, isPrefixOf_append_self, not_pfx_o_s,
          not_pfx_w_s]]
      dsimp only
      rw [drop_length_append, if_neg (by simp [hrelE]), hget2]

/-- Witness for C7 on a concrete two-object bucket holding the backup
marker and one session transcript. -/
theorem session_files_deferred_witness :
    ("openclaw/".data ++ "agents/a/sessions/s.jsonl".data) ∈
      (restoreFromR2 true
        [ (markerKey, FileData.text "T".data),
          ("openclaw/agents/a/sessions/s.jsonl".data,
            FileData.text "S".data) ]).deferredKeys ∧
    lastWrite
      (restoreFromR2 true
        [ (markerKey, FileData.text "T".data),
          ("openclaw/agents/a/sessions/s.jsonl".data,
            FileData.text "S".data) ]).fsWrites
      ("/root/.openclaw".data ++ "/".data ++ "agents/a/sessions/s.jsonl".data) =
      none ∧
    ("/root/.openclaw".data ++ "/".data ++ "agents/a/sessions/s.jsonl".data,
      (FileData.text "S".data).asText) ∈
      deferredWrites true
        [ (markerKey, FileData.text "T".data),
          ("openclaw/agents/a/sessions/s.jsonl".data, FileData.text "S".data) ]
        (restoreFromR2 true
          [ (markerKey, FileData.text "T".data),
            ("openclaw/agents/a/sessions/s.jsonl".data,
              FileData.text "S".data) ]).deferredKeys :=
  session_files_deferred
    [ (markerKey, FileData.text "T".data),
      ("openclaw/agents/a/sessions/s.jsonl".data, FileData.text "S".data) ]
    { r2Pfx := "openclaw/".data, targetPath := "/root/.openclaw".data }
    ("agents/a/sessions/s.jsonl".data) (FileData.text "S".data)
    (FileData.text "T".data)
    (by decide) (by decide) (by decide) (by decide) (by decide) (by decide)
    (by decide) (by decide)

/-- C1 (amended): concurrent `ensureReady` callers share at most one
start attempt per throttle window.  For every interleaving whose
resumption times fall inside one throttle-window span (starting at least
one throttle width after time zero, as any real clock does): at most one
throttle-pass occurs, `startProcess` calls never exceed throttle-passes,
some caller getting past the listing phase forces at least one
throttle-pass, runs with no caller left mid-attempt issue exactly one
`startProcess` (others join the shared future or fail throttled), and
once no attempt is in flight the shared slot is cleared.  Without the
window restriction a second concurrent start is possible — see the
counterexample. -/
theorem concurrent_start_dedup
    (n : Nat) (sched : List (Nat × Nat)) (T : Nat)
    (hT : START_THROTTLE_MS ≤ T)
    (hw : ∀ s ∈ sched, T ≤ s.2 ∧ s.2 < T + START_THROTTLE_MS) :
    attemptCount (runMachine n sched) ≤ 1 ∧
    startCount (runMachine n sched) ≤ attemptCount (runMachine n sched) ∧
    ((∃ j ph, (runMachine n sched).phases.get? j = some ph ∧
        ph ≠ CallerPhase.entry ∧ ph ≠ CallerPhase.awaitingFind) →
      1 ≤ attemptCount (runMachine n sched)) ∧
    (phaseCount (runMachine n sched) CallerPhase.inAttempt = 0 →
      startCount (runMachine n sched) = attemptCount (runMachine n sched)) ∧
    (phaseCount (runMachine n sched) CallerPhase.inAttempt = 0 →
      phaseCount (runMachine n sched) CallerPhase.awaitingPort = 0 →
      (runMachine n sched).slot = none) ∧
    ((∃ j ph, (runMachine n sched).phases.get? j = some ph ∧
        ph ≠ CallerPhase.entry ∧ ph ≠ CallerPhase.awaitingFind) →
      phaseCount (runMachine n sched) CallerPhase.inAttempt = 0 →
      startCount (runMachine n sched) = 1) := by
  obtain ⟨i1, i2, i3, i4, i5⟩ := machineInv_run T n hT sched hw
  have hub : attemptCount (runMachine n sched) ≤ 1 := by
    rcases i3 with ⟨_, h⟩ | ⟨_, _, h⟩ <;> omega
  refine ⟨hub, by omega, ?_, ?_, ?_, ?_⟩
  · rintro ⟨j, ph, hj, h1, h2⟩
    exact i5 j ph hj h1 h2
  · intro hin
    omega
  · intro hin hport
    by_cases hs : (runMachine n sched).slot = none
    · exact hs
    · exfalso
      obtain ⟨j, hj⟩ := Option.ne_none_iff_exists'.mp hs
      rcases i4 j hj with h4 | h4
      · have hc := countP_pos_of_get? (fun q => q == CallerPhase.inAttempt)
          (runMachine n sched).phases j _ h4 (by simp)
        unfold phaseCount at hin
        omega
      · have hc := countP_pos_of_get? (fun q => q == CallerPhase.awaitingPort)
          (runMachine n sched).phases j _ h4 (by simp)
        unfold phaseCount at hport
        omega
  · rintro ⟨j, ph, hj, h1, h2⟩ hin
    have hb := i5 j ph hj h1 h2
    omega

/-- Counterexample for C1 as stated: two overlapping callers, no gateway
process anywhere, yet two `startProcess` calls are issued — caller 1
passed the line-144 check while the slot was still empty, its process
listing outlasted the throttle window, and its throttle check then
succeeded while caller 0's start attempt was still in flight (caller 0 is
still awaiting the port when the second start happens). -/
theorem concurrent_start_dedup_counterexample :
    startCount (runMachine 2
      [(1, 20000), (0, 20000), (0, 20000), (0, 20001), (1, 35001), (1, 35002)]) = 2 ∧
    (runMachine 2
      [(1, 20000), (0, 20000), (0, 20000), (0, 20001), (1, 35001)]).phases.get? 0 =
      some CallerPhase.awaitingPort ∧
    startCount (runMachine 2
      [(1, 20000), (0, 20000), (0, 20000), (0, 20001), (1, 35001)]) = 1 := by
  refine ⟨by decide, by decide, by decide⟩

/-- Witness for C1 (amended) on a three-caller burst: one caller starts
and completes, one joins the in-flight future, one is throttled — exactly
one `startProcess`, and the slot is cleared at the end. -/
theorem concurrent_start_dedup_witness :
    startCount (runMachine 3
      [(0, 20000), (2, 20000), (0, 20001), (1, 20002), (2, 20003), (0, 20004),
        (0, 20005)]) = 1 ∧
    (runMachine 3
      [(0, 20000), (2, 20000), (0, 20001), (1, 20002), (2, 20003), (0, 20004),
        (0, 20005)]).slot = none := by
  have h := concurrent_start_dedup 3
    [(0, 20000), (2, 20000), (0, 20001), (1, 20002), (2, 20003), (0, 20004),
      (0, 20005)] 20000 (by decide) (by decide)
  refine ⟨?_, ?_⟩
  · exact h.2.2.2.2.2 ⟨0, CallerPhase.finished, by decide, by decide, by decide⟩
      (by decide)
  · exact h.2.2.2.2.1 (by decide) (by decide)

/-- C2 (amended): starting from an empty bucket, `syncToR2` followed by
`restoreFromR2` reproduces byte-identical content at the original path
for every non-excluded uploaded file that restore does not defer
(non-session) and whose stored bytes survive the lossy `.text()` decoding
(the hypothesis `utf8Enc (asText bytes) = bytes`, which holds for every
text file); and the restored marker timestamp equals the one written by
sync.  Binary files with non-UTF-8 bytes and deferred session files are
excluded — see the counterexample. -/
theorem sync_restore_roundtrip
    (fs : SandboxFS) (nowIso : Chars) (step : SyncStep) (f : FileEntry) (rel : Chars)
    (hcfg : fsExists fs newConfigMarker = true)
    (hpaths : (fs.map FileEntry.absolutePath).Nodup)
    (hstep : step ∈ syncSteps "/root/.openclaw".data)
    (hf : f ∈ fs)
    (habs : f.absolutePath = step.sourcePath ++ "/".data ++ rel)
    (hfile : f.isFile = true) (hread : f.readOk = true)
    (hrel : rel ≠ [])
    (hxa : shouldExclude f.absolutePath = false)
    (hxr : shouldExclude rel = false)
    (hxd : step.excludeDirs.any (fun d => (d ++ "/".data).isPrefixOf rel) = false)
    (hsess : isSessionFile ('/' :: rel) = false)
    (hutf : utf8Enc (f.data.asText) = f.data.bytes) :
    (lastWrite (restoreFromR2 true (syncToR2 true fs [] nowIso).bucket).fsWrites
        f.absolutePath).map utf8Enc = some f.data.bytes ∧
    (restoreFromR2 true (syncToR2 true fs [] nowIso).bucket).result.lastSync =
      some nowIso := by
  have hdet := determineConfigDir_new fs hcfg
  have hsync := syncToR2_with_config fs [] nowIso _ hdet
  rw [hsync]
  set uploads := ((syncSteps "/root/.openclaw".data).map (stepUploads fs)).flatten
    with hu
  set allW := uploads ++ [(markerKey, FileData.text nowIso)] with ha
  dsimp only
  have hmg : bucketGet (applyPuts [] allW) markerKey = some (FileData.text nowIso) := by
    rw [bucketGet_applyPuts, ha, lastPutVal_append_last]
    rfl
  rw [restoreFromR2_marker _ _ hmg]
  dsimp only
  refine ⟨?_, rfl⟩
  have hrelStep : stepRel step f.absolutePath = rel := by
    rw [habs]
    exact stepRel_append step rel
  have hup : stepUploadOf step f = some (step.r2Pfx ++ rel, f.data) := by
    have h := stepUploadOf_eq step f hfile hxa (by rw [hrelStep]; exact hxd) hread
    rw [hrelStep] at h
    exact h
  have hlist : f ∈ listFilesUnder fs step.sourcePath := by
    apply List.mem_filter.mpr
    refine ⟨hf, ?_⟩
    rw [habs]
    exact isPrefixOf_append_self _ _
  have hmemUp : (step.r2Pfx ++ rel, f.data) ∈ stepUploads fs step :=
    List.mem_filterMap.mpr ⟨f, hlist, hup⟩
  have hmemU : (step.r2Pfx ++ rel, f.data) ∈ uploads := by
    rw [hu]
    exact List.mem_flatten.mpr
      ⟨stepUploads fs step, List.mem_map_of_mem _ hstep, hmemUp⟩
  have hmemAll : (step.r2Pfx ++ rel, f.data) ∈ allW := by
    rw [ha]
    exact List.mem_append_left _ hmemU
  have huval : ∀ e ∈ allW, e.1 = step.r2Pfx ++ rel → e.2 = f.data := by
    intro e he hek
    rw [ha] at he
    rcases List.mem_append.mp he with he | he
    · rw [hu] at he
      obtain ⟨l, hl, hel⟩ := List.mem_flatten.mp he
      obtain ⟨st2, hst2, hleq⟩ := List.mem_map.mp hl
      rw [← hleq] at hel
      obtain ⟨f2, relU, hf2, habs2, hee, hxd2⟩ := stepUploads_key_shape fs st2 e hel
      have hkey : st2.r2Pfx ++ relU = step.r2Pfx ++ rel := by
        rw [hee] at hek
        exact hek
      have hst2eq : st2 = step := syncSteps_pfx_unique step st2 rel relU hstep hst2 hkey
      subst hst2eq
      have hrelU : relU = rel := List.append_cancel_left hkey
      have habsEq : f2.absolutePath = f.absolutePath := by
        rw [habs2, hrelU, habs]
      have hff : f2 = f := List.inj_on_of_nodup_map hpaths hf2 hf habsEq
      rw [hee, hff]
    · have heq2 : e = (markerKey, FileData.text nowIso) := by simpa using he
      rw [heq2] at hek
      exfalso
      have hne : step.r2Pfx ++ rel ≠ markerKey := by
        fin_cases hstep <;> exact cons_append_ne_of_head _ _ _ _ _ (by decide)
      exact hne hek.symm
  have hlastv : lastPutVal allW (step.r2Pfx ++ rel) = some f.data := by
    obtain ⟨v2, hv2⟩ := lastPutVal_isSome_of_mem allW _ f.data hmemAll
    have hmem2 := lastPutVal_mem _ _ _ hv2
    have hv2f : v2 = f.data := huval _ hmem2 rfl
    rw [hv2, hv2f]
  have hgetk : bucketGet (applyPuts [] allW) (step.r2Pfx ++ rel) = some f.data := by
    rw [bucketGet_applyPuts, hlastv]
    rfl
  have hmatch : ∃ rstep, rstep ∈ restoreSteps ∧ rstep.r2Pfx = step.r2Pfx ∧
      rstep.targetPath = step.sourcePath := by
    fin_cases hstep
    · exact ⟨⟨"openclaw/".data, "/root/.openclaw".data⟩, by decide, rfl, rfl⟩
    · exact ⟨⟨"workspace/".data, "/root/clawd".data⟩, by decide, rfl, rfl⟩
    · exact ⟨⟨"skills/".data, "/root/clawd/skills".data⟩, by decide, rfl, rfl⟩
  obtain ⟨rstep, hrs, hrpfx, hrtgt⟩ := hmatch
  have hkmem : (step.r2Pfx ++ rel, f.data) ∈ applyPuts [] allW :=
    bucketGet_mem _ _ _ hgetk
  have hdropk : (step.r2Pfx ++ rel).drop rstep.r2Pfx.length = rel := by
    rw [hrpfx]
    exact drop_length_append _ _
  have hobj : (step.r2Pfx ++ rel, f.data) ∈
      restoreStepObjects (applyPuts [] allW) rstep := by
    apply restoreStepObjects_mem _ _ _ _ hkmem
    · rw [hrpfx]
      exact isPrefixOf_append_self _ _
    · rw [hdropk]
      exact List.length_pos.mpr hrel
  have hwmem0 := restoreStepWrites_mem (applyPuts [] allW) rstep _ f.data f.data hobj
    (by rw [hdropk]; exact hxr) (by rw [hdropk]; exact hsess) hgetk
  have htgt : rstep.targetPath ++ "/".data ++
      ((step.r2Pfx ++ rel).drop rstep.r2Pfx.length) = f.absolutePath := by
    rw [hdropk, hrtgt, habs]
  rw [htgt] at hwmem0
  have hwflat : (f.absolutePath, f.data.asText) ∈
      (restoreSteps.map (restoreStepWrites (applyPuts [] allW))).flatten :=
    List.mem_flatten.mpr ⟨_, List.mem_map_of_mem _ hrs, hwmem0⟩
  have huniqW :
      ∀ e ∈ (restoreSteps.map (restoreStepWrites (applyPuts [] allW))).flatten,
        e.1 = f.absolutePath → e.2 = f.data.asText := by
    intro e he hep
    obtain ⟨l, hl, hel⟩ := List.mem_flatten.mp he
    obtain ⟨s2, hs2, hleq⟩ := List.mem_map.mp hl
    rw [← hleq] at hel
    obtain ⟨k2, v2, hk2b, hpfx2, hlen2, hx2, hsess2, v2f, hget2, hee⟩ :=
      restoreStepWrites_inv _ s2 e hel
    rcases applyPuts_mem (k2, v2) allW [] hk2b with hallm | hnil
    · rw [ha] at hallm
      rcases List.mem_append.mp hallm with hupm | hmarkm
      · rw [hu] at hupm
        obtain ⟨l2, hl2, hel2⟩ := List.mem_flatten.mp hupm
        obtain ⟨st2, hst2, hleq2⟩ := List.mem_map.mp hl2
        rw [← hleq2] at hel2
        obtain ⟨f2, relU, hf2, habs2, hee2, hxd2⟩ :=
          stepUploads_key_shape fs st2 (k2, v2) hel2
        have hk2eq : k2 = st2.r2Pfx ++ relU := by
          have hfst := congrArg Prod.fst hee2
          simpa using hfst
        have hmatch2 := sync_restore_step_match st2 s2 relU hst2 hs2
          (by rw [← hk2eq]; exact hpfx2)
        have hdrop2 : k2.drop s2.r2Pfx.length = relU := by
          rw [hk2eq, hmatch2.1]
          exact drop_length_append _ _
        have hpath : st2.sourcePath ++ "/".data ++ relU =
            step.sourcePath ++ "/".data ++ rel := by
          have h1 : e.1 = s2.targetPath ++ "/".data ++ (k2.drop s2.r2Pfx.length) := by
            rw [hee]
          rw [hdrop2, hmatch2.2] at h1
          rw [← habs, ← hep, h1]
        obtain ⟨hst2eq, hrelUeq⟩ :=
          sync_target_collision step st2 rel relU hstep hst2 hpath hxd hxd2
        have hk2k : k2 = step.r2Pfx ++ rel := by
          rw [hk2eq, hst2eq, hrelUeq]
        have hv2f : v2f = f.data := by
          rw [hk2k] at hget2
          rw [hget2] at hgetk
          exact Option.some.inj hgetk
        have he2 : e.2 = v2f.asText := by
          rw [hee]
        rw [he2, hv2f]
      · have hmk : (k2, v2) = (markerKey, FileData.text nowIso) := by
          simpa using hmarkm
        have hk2m : k2 = markerKey := congrArg Prod.fst hmk
        rw [hk2m] at hpfx2
        rw [restoreSteps_pfx_not_marker s2 hs2] at hpfx2
        cases hpfx2
    · cases hnil
  have hlw : lastWrite
      ((restoreSteps.map (restoreStepWrites (applyPuts [] allW))).flatten)
      f.absolutePath = some (f.data.asText) :=
    lastWrite_eq_of_unique _ _ _ ⟨(f.absolutePath, f.data.asText), hwflat, rfl, rfl⟩
      huniqW
  rw [hlw]
  simp [hutf]

/-- Counterexample for C2 as stated: on a sandbox holding the config
marker, a binary file with the single byte 0x80 and a session transcript,
sync followed by restore into an empty target neither reproduces the
binary file byte-identically (the lossy `.text()` decoding turns 0x80
into the three UTF-8 bytes of the replacement character) nor writes the
session file at all (it is in the deferred set). -/
theorem sync_restore_roundtrip_counterexample :
    (lastWrite (restoreFromR2 true (syncToR2 true
        [ { absolutePath := "/root/.openclaw/openclaw.json".data, isFile := true,
            readOk := true, data := .text "cfg".data },
          { absolutePath := "/root/.openclaw/blob.bin".data, isFile := true,
            readOk := true, data := .bin [0x80] },
          { absolutePath := "/root/.openclaw/agents/a/sessions/s.jsonl".data,
            isFile := true, readOk := true, data := .text "S".data } ]
        [] "2024-01-01T00:00:00.000Z".data).bucket).fsWrites
      "/root/.openclaw/blob.bin".data).map utf8Enc =
      some [0xEF, 0xBF, 0xBD] ∧
    (FileData.bin [0x80]).bytes = [0x80] ∧
    (some [0xEF, 0xBF, 0xBD] : Option Bytes) ≠ some ((FileData.bin [0x80]).bytes) ∧
    ("openclaw/agents/a/sessions/s.jsonl".data, FileData.text "S".data) ∈
      (syncToR2 true
        [ { absolutePath := "/root/.openclaw/openclaw.json".data, isFile := true,
            readOk := true, data := .text "cfg".data },
          { absolutePath := "/root/.openclaw/blob.bin".data, isFile := true,
            readOk := true, data := .bin [0x80] },
          { absolutePath := "/root/.openclaw/agents/a/sessions/s.jsonl".data,
            isFile := true, readOk := true, data := .text "S".data } ]
        [] "2024-01-01T00:00:00.000Z".data).writes ∧
    lastWrite (restoreFromR2 true (syncToR2 true
        [ { absolutePath := "/root/.openclaw/openclaw.json".data, isFile := true,
            readOk := true, data := .text "cfg".data },
          { absolutePath := "/root/.openclaw/blob.bin".data, isFile := true,
            readOk := true, data := .bin [0x80] },
          { absolutePath := "/root/.openclaw/agents/a/sessions/s.jsonl".data,
            isFile := true, readOk := true, data := .text "S".data } ]
        [] "2024-01-01T00:00:00.000Z".data).bucket).fsWrites
      "/root/.openclaw/agents/a/sessions/s.jsonl".data = none := by
  refine ⟨by decide, by decide, by decide, by decide, by decide⟩

/-- Witness for C2 (amended) on a one-file sandbox: the config marker
itself round-trips byte-identically and the restored timestamp matches. -/
theorem sync_restore_roundtrip_witness :
    (lastWrite (restoreFromR2 true (syncToR2 true
        [ { absolutePath := "/root/.openclaw/openclaw.json".data, isFile := true,
            readOk := true, data := .text "cfg".data } ]
        [] "2024-01-01T00:00:00.000Z".data).bucket).fsWrites
      ({ absolutePath := "/root/.openclaw/openclaw.json".data, isFile := true,
         readOk := true,
         data := FileData.text "cfg".data } : FileEntry).absolutePath).map utf8Enc =
      some (FileData.text "cfg".data).bytes ∧
    (restoreFromR2 true (syncToR2 true
        [ { absolutePath := "/root/.openclaw/openclaw.json".data, isFile := true,
            readOk := true, data := .text "cfg".data } ]
        [] "2024-01-01T00:00:00.000Z".data).bucket).result.lastSync =
      some "2024-01-01T00:00:00.000Z".data :=
  sync_restore_roundtrip
    [ { absolutePath := "/root/.openclaw/openclaw.json".data, isFile := true,
        readOk := true, data := .text "cfg".data } ]
    ("2024-01-01T00:00:00.000Z".data)
    { name := "config".data, sourcePath := "/root/.openclaw".data,
      r2Pfx := "openclaw/".data, excludeDirs := [] }
    { absolutePath := "/root/.openclaw/openclaw.json".data, isFile := true,
      readOk := true, data := .text "cfg".data }
    ("openclaw.json".data)
    (by decide) (by decide) (by decide) (by decide) (by decide) rfl rfl
    (by decide) (by decide) (by decide) (by decide) (by decide) rfl

/-- C10: `findExistingMoltbotProcess` never throws: when the process
listing fails and no fresh or stale-eligible cached snapshot is available,
it returns a `null` gateway process and issues no kills, exactly as for an
empty process list, so `ensureReady` proceeds to the start path. -/
theorem findExisting_swallows_listing_failure
    (st : CacheState) (tNow tDone : Nat) (e : Chars)
    (hc : st.cachedProcesses = none ∨ PROCESS_LIST_STALE_MS ≤ tNow - st.cachedAt) :
    (findExistingMoltbotProcess st tNow tDone (.error e)).gw = none ∧
    (findExistingMoltbotProcess st tNow tDone (.error e)).zombies = [] ∧
    (findExistingMoltbotProcess st tNow tDone (.error e)).gw =
      (findExistingMoltbotProcess st tNow tDone (.ok [])).gw ∧
    (findExistingMoltbotProcess st tNow tDone (.error e)).zombies =
      (findExistingMoltbotProcess st tNow tDone (.ok [])).zombies := by
  cases hcp : st.cachedProcesses with
  | none =>
    simp [findExistingMoltbotProcess, listProcessesCached, runListBackend, hcp,
      classifyProcesses, classifyAux]
  | some cp =>
    rcases hc with hc | hc
    · rw [hcp] at hc; cases hc
    · have h1 : ¬ (tNow - st.cachedAt < PROCESS_LIST_TTL_MS) := by
        unfold PROCESS_LIST_STALE_MS at hc
        unfold PROCESS_LIST_TTL_MS
        omega
      have h2 : ¬ (tNow - st.cachedAt < PROCESS_LIST_STALE_MS) := by
        unfold PROCESS_LIST_STALE_MS at hc ⊢
        omega
      simp [findExistingMoltbotProcess, listProcessesCached, runListBackend, hcp,
        h1, h2, classifyProcesses, classifyAux]

/-- Witness for C10 at a concrete fresh state and error. -/
theorem findExisting_swallows_listing_failure_witness :
    (findExistingMoltbotProcess initialCacheState 5 6 (.error "boom".data)).gw = none ∧
    (findExistingMoltbotProcess initialCacheState 5 6 (.error "boom".data)).zombies = [] ∧
    (findExistingMoltbotProcess initialCacheState 5 6 (.error "boom".data)).gw =
      (findExistingMoltbotProcess initialCacheState 5 6 (.ok [])).gw ∧
    (findExistingMoltbotProcess initialCacheState 5 6 (.error "boom".data)).zombies =
      (findExistingMoltbotProcess initialCacheState 5 6 (.ok [])).zombies :=
  findExisting_swallows_listing_failure initialCacheState 5 6 ("boom".data) (Or.inl rfl)

/-- C3: `syncToR2` with neither config marker present returns a failed
result carrying the no-config error and performs zero store writes (no
`put` call at all, the backup marker included), leaving the bucket
untouched. -/
theorem sync_without_config_zero_writes
    (fs : SandboxFS) (b0 : Bucket) (nowIso : Chars)
    (hn : fsExists fs newConfigMarker = false)
    (hl : fsExists fs legacyConfigMarker = false) :
    (syncToR2 true fs b0 nowIso).result.success = false ∧
    (syncToR2 true fs b0 nowIso).result.error =
      some "Sync aborted: no config file found".data ∧
    (syncToR2 true fs b0 nowIso).writes = [] ∧
    (syncToR2 true fs b0 nowIso).bucket = b0 := by
  simp [syncToR2, determineConfigDir, hn, hl]

/-- Witness for C3 on the empty sandbox. -/
theorem sync_without_config_zero_writes_witness :
    (syncToR2 true [] [] "2024-01-01T00:00:00.000Z".data).result.success = false ∧
    (syncToR2 true [] [] "2024-01-01T00:00:00.000Z".data).result.error =
      some "Sync aborted: no config file found".data ∧
    (syncToR2 true [] [] "2024-01-01T00:00:00.000Z".data).writes = [] ∧
    (syncToR2 true [] [] "2024-01-01T00:00:00.000Z".data).bucket = [] :=
  sync_without_config_zero_writes [] [] ("2024-01-01T00:00:00.000Z".data) rfl rfl

/-- C5: the process-directory refresh serves the cached snapshot when the
backend listing fails and the cache is younger than the staleness bound;
with no such snapshot the error propagates; and a successful refresh (one
that actually runs the backend) replaces the snapshot and fetch timestamp
and clears the recorded error. -/
theorem refresh_stale_fallback_and_replacement
    (st : CacheState) (tNow tDone : Nat) (backend : Except Chars (List Proc)) :
    (∀ cp e, st.cachedProcesses = some cp → backend = .error e →
      tNow - st.cachedAt < PROCESS_LIST_STALE_MS →
      (listProcessesCached st tNow tDone backend).1 = .ok cp) ∧
    (∀ e, backend = .error e →
      (st.cachedProcesses = none ∨ PROCESS_LIST_STALE_MS ≤ tNow - st.cachedAt) →
      (listProcessesCached st tNow tDone backend).1 = .error e) ∧
    (∀ ps, backend = .ok ps →
      (st.cachedProcesses = none ∨ PROCESS_LIST_TTL_MS ≤ tNow - st.cachedAt) →
      (listProcessesCached st tNow tDone backend).2 =
        { cachedProcesses := some ps, cachedAt := tDone,
          lastListError := none, lastListErrorAt := 0 }) := by
  refine ⟨?_, ?_, ?_⟩
  · intro cp e hcp hb hst
    subst hb
    by_cases httl : tNow - st.cachedAt < PROCESS_LIST_TTL_MS
    · simp [listProcessesCached, hcp, httl]
    · simp [listProcessesCached, runListBackend, hcp, httl, hst]
  · intro e hb hc
    subst hb
    cases hcp : st.cachedProcesses with
    | none => simp [listProcessesCached, runListBackend, hcp]
    | some cp =>
      rcases hc with hc | hc
      · rw [hcp] at hc; cases hc
      · have h1 : ¬ (tNow - st.cachedAt < PROCESS_LIST_TTL_MS) := by
          unfold PROCESS_LIST_STALE_MS at hc
          unfold PROCESS_LIST_TTL_MS
          omega
        have h2 : ¬ (tNow - st.cachedAt < PROCESS_LIST_STALE_MS) := by
          unfold PROCESS_LIST_STALE_MS at hc ⊢
          omega
        simp [listProcessesCached, runListBackend, hcp, h1, h2]
  · intro ps hb hc
    subst hb
    cases hcp : st.cachedProcesses with
    | none => simp [listProcessesCached, runListBackend, hcp]
    | some cp =>
      rcases hc with hc | hc
      · rw [hcp] at hc; cases hc
      · have h1 : ¬ (tNow - st.cachedAt < PROCESS_LIST_TTL_MS) := by omega
        simp [listProcessesCached, runListBackend, hcp, h1]

/-- Witness for C5 at concrete states: a stale-eligible cache served over
a failure, a propagated failure on a cold cache, and a replacement on
success. -/
theorem refresh_stale_fallback_and_replacement_witness :
    (listProcessesCached
      { cachedProcesses := some [], cachedAt := 1000, lastListError := none,
        lastListErrorAt := 0 } 6000 6001 (.error "down".data)).1 = .ok [] ∧
    (listProcessesCached initialCacheState 5 6 (.error "down".data)).1 =
      .error "down".data ∧
    (listProcessesCached initialCacheState 5 6 (.ok [])).2 =
      { cachedProcesses := some [], cachedAt := 6,
        lastListError := none, lastListErrorAt := 0 } := by
  refine ⟨?_, ?_, ?_⟩
  · exact (refresh_stale_fallback_and_replacement
      { cachedProcesses := some [], cachedAt := 1000, lastListError := none,
        lastListErrorAt := 0 } 6000 6001 (.error "down".data)).1 [] ("down".data)
      rfl rfl (by decide)
  · exact (refresh_stale_fallback_and_replacement initialCacheState 5 6
      (.error "down".data)).2.1 ("down".data) rfl (Or.inl rfl)
  · exact (refresh_stale_fallback_and_replacement initialCacheState 5 6
      (.ok [])).2.2 [] rfl (Or.inl rfl)

end Moltworker
